import Mathlib

/-!
Verification of `add_files_to_xcode.py`: a single-pass patcher that discovers
Swift source files under fixed category subdirectories, generates manifest
fragments for each, and splices them into a `project.pbxproj` manifest at four
marker-delimited injection points.

The embedding below translates the script's data and control flow:
strings stay strings, the Python `while` loop with its inner marker-scanning
loops becomes a five-mode state machine over the list of manifest lines,
and the `IndexError` raised when an inner loop runs past the end of the
file becomes `none` in an `Option` result.
-/

namespace AddFilesToXcode

/-- The directory list iterated by discovery (line 25 of the script). -/
def discoveryDirs : List String := ["Views", "ViewModels", "Models", "Services", "Components"]

/-- The directory list used by the folder-reference drop check (line 100). -/
def watchedDirs : List String := ["Models", "ViewModels", "Views", "Services", "Components"]

/-- The hardcoded exclusion set (line 33). -/
def excludedFiles : List String := ["IncApp.swift", "ContentView.swift"]

/-- Substring test on character lists: Python's `needle in hay`. -/
def subOf (needle : List Char) : List Char → Bool
  | [] => needle.isEmpty
  | c :: t => needle.isPrefixOf (c :: t) || subOf needle t

/-- `strContains hay needle` is Python's `needle in hay` on strings. -/
def strContains (hay needle : String) : Bool := subOf needle.data hay.data

/-- Marker test of line 79: begin of the PBXBuildFile section. -/
def isBeginBuildFile (l : String) : Bool := strContains l "/* Begin PBXBuildFile section */"

/-- Marker test of line 83: end of the PBXBuildFile section. -/
def isEndBuildFile (l : String) : Bool := strContains l "/* End PBXBuildFile section */"

/-- Marker test of line 93: begin of the PBXFileReference section. -/
def isBeginFileRef (l : String) : Bool := strContains l "/* Begin PBXFileReference section */"

/-- Marker test of line 97: end of the PBXFileReference section. -/
def isEndFileRef (l : String) : Bool := strContains l "/* End PBXFileReference section */"

/-- Marker test of line 113: end of the PBXGroup section. -/
def isEndPBXGroup (l : String) : Bool := strContains l "/* End PBXGroup section */"

/-- Marker test of line 139: header of the Sources build phase. -/
def isSourcesStart (l : String) : Bool :=
  strContains l "AA9999940000000000000001 /* Sources */ = \x7b"

/-- Marker test of line 143: opener of the build phase's file list. -/
def hasFilesOpen (l : String) : Bool := strContains l "files = ("

/-- Marker test of line 149: closer of the build phase's file list. -/
def hasCloseParen (l : String) : Bool := strContains l ");"

/-- Drop test of lines 99-101: a folder-type reference whose comment names one
of the watched category directories. -/
def isDroppedFolderLine (l : String) : Bool :=
  strContains l "lastKnownFileType = folder;" &&
    watchedDirs.any (fun d => strContains l ("/* " ++ d ++ " */"))

/-- A line that triggers none of the four region handlers of the main loop. -/
def triggersNone (l : String) : Bool :=
  !(isBeginBuildFile l || isBeginFileRef l || isEndPBXGroup l || isSourcesStart l)

/-- The decimal digit characters of `n`, most significant first, computed with
explicit fuel so the definition is structurally recursive. -/
def toDigitsAux : Nat → Nat → List Char
  | 0, _ => []
  | fuel + 1, n =>
    if n = 0 then [] else toDigitsAux fuel (n / 10) ++ [Char.ofNat (48 + n % 10)]

/-- Decimal digit characters of `n` (`"0"` for zero). -/
def natToDigits (n : Nat) : List Char := if n = 0 then ['0'] else toDigitsAux n n

/-- Python zero-padded decimal formatting of the counter, format spec 020d:
decimal digits left-padded with zeros to width 20. -/
def pad20 (n : Nat) : String :=
  ⟨List.replicate (20 - (natToDigits n).length) '0' ++ natToDigits n⟩

/-- Decoder of a zero-padded decimal digit string, used to prove that the
identifier encoding is injective. -/
def digitsVal (l : List Char) : Nat := l.foldl (fun a c => a * 10 + (c.toNat - 48)) 0

/-- `generate_id` (lines 12-15): a prefix followed by the zero-padded counter. -/
def generate_id (pre : String) (counter : Nat) : String := pre ++ pad20 counter

/-- Code-point lexicographic comparison of character lists: Python's `<=` on
the strings compared by `sorted`. -/
def charListLe : List Char → List Char → Bool
  | [], _ => true
  | _ :: _, [] => false
  | a :: as, b :: bs => if a < b then true else if a = b then charListLe as bs else false

/-- Python's `<=` on strings: code-point lexicographic. -/
def strLe (a b : String) : Bool := charListLe a.data b.data

/-- The `*.swift` glob filter of line 28 as a suffix test on the name. -/
def hasSwiftExt (f : String) : Bool := List.isSuffixOf ".swift".data f.data

/-- The filesystem as discovery sees it: which category directories exist, and
the names of the entries inside each. -/
structure FS where
  dirExists : String → Bool
  dirFiles : String → List String

/-- Discovery (lines 25-29): for each category directory in the fixed order
that exists, the `*.swift` entries sorted by name, paired with the category. -/
def discover (fs : FS) : List (String × String) :=
  discoveryDirs.flatMap (fun d =>
    if fs.dirExists d then
      (((fs.dirFiles d).filter hasSwiftExt).mergeSort strLe).map (fun f => (d, f))
    else [])

/-- `files_to_add` (lines 32-33): discovered files minus the exclusion set. -/
def filesToAdd (fs : FS) : List (String × String) :=
  (discover fs).filter (fun p => !excludedFiles.contains p.2)

/-- The PBXFileReference fragment of lines 54-58. -/
def fileRefEntry (fid filename : String) : String :=
  "\t\t" ++ fid ++ " /* " ++ filename ++ " */ = \x7bisa = PBXFileReference; " ++
    "lastKnownFileType = sourcecode.swift; path = " ++ filename ++
    "; sourceTree = \"<group>\"; \x7d;\n"

/-- The PBXBuildFile fragment of lines 61-64. -/
def buildFileEntry (bid fid filename : String) : String :=
  "\t\t" ++ bid ++ " /* " ++ filename ++ " in Sources */ = \x7bisa = PBXBuildFile; " ++
    "fileRef = " ++ fid ++ " /* " ++ filename ++ " */; \x7d;\n"

/-- The sources-phase fragment of line 67. -/
def sourcesEntry (bid filename : String) : String :=
  "\t\t\t\t" ++ bid ++ " /* " ++ filename ++ " in Sources */,\n"

/-- The group-child fragment of line 70. -/
def groupChildEntry (fid filename : String) : String :=
  "\t\t\t\t" ++ fid ++ " /* " ++ filename ++ " */,\n"

/-- `file_ref_entries` built by the loop of lines 47-58, starting the shared
counter at `c` and advancing it by one per file. -/
def fileRefEntriesFrom (c : Nat) : List (String × String) → List String
  | [] => []
  | (_, f) :: rest => fileRefEntry (generate_id "BB" c) f :: fileRefEntriesFrom (c + 1) rest

/-- `build_file_entries` built by the loop of lines 47-64: both identifiers of a
file come from the same counter value. -/
def buildFileEntriesFrom (c : Nat) : List (String × String) → List String
  | [] => []
  | (_, f) :: rest =>
    buildFileEntry (generate_id "CC" c) (generate_id "BB" c) f :: buildFileEntriesFrom (c + 1) rest

/-- `sources_entries` built by the loop of lines 47-67. -/
def sourcesEntriesFrom (c : Nat) : List (String × String) → List String
  | [] => []
  | (_, f) :: rest => sourcesEntry (generate_id "CC" c) f :: sourcesEntriesFrom (c + 1) rest

/-- `group_entries[d]` built by the loop of lines 47-70: the group-child
fragments of the files whose category is `d`, in discovery order. -/
def groupEntriesFrom (c : Nat) (d : String) : List (String × String) → List String
  | [] => []
  | (dir, f) :: rest =>
    if dir = d then groupChildEntry (generate_id "BB" c) f :: groupEntriesFrom (c + 1) d rest
    else groupEntriesFrom (c + 1) d rest

/-- `file_ref_entries` with the counter seeded at 5000 (line 47). -/
def fileRefEntries (files : List (String × String)) : List String := fileRefEntriesFrom 5000 files

/-- `build_file_entries` with the counter seeded at 5000. -/
def buildFileEntries (files : List (String × String)) : List String := buildFileEntriesFrom 5000 files

/-- `sources_entries` with the counter seeded at 5000. -/
def sourcesEntries (files : List (String × String)) : List String := sourcesEntriesFrom 5000 files

/-- `group_entries` with the counter seeded at 5000, as a map from category. -/
def groupEntriesOf (files : List (String × String)) (d : String) : List String :=
  groupEntriesFrom 5000 d files

/-- `dir_id_map` (lines 115-121), in the dict's insertion order. -/
def dirIdMap : List (String × String) :=
  [("Models", "AA0000100000000000000001"),
   ("ViewModels", "AA0000110000000000000001"),
   ("Views", "AA0000120000000000000001"),
   ("Services", "AA0000130000000000000001"),
   ("Components", "AA0000140000000000000001")]

/-- One group-definition block (lines 125-132). -/
def groupBlock (d gid : String) (entries : List String) : List String :=
  ("\t\t" ++ gid ++ " /* " ++ d ++ " */ = \x7b\n") ::
    "\t\t\tisa = PBXGroup;\n" ::
    "\t\t\tchildren = (\n" ::
    entries ++
    ["\t\t\t);\n",
     "\t\t\tpath = " ++ d ++ ";\n",
     "\t\t\tsourceTree = \"<group>\";\n",
     "\t\t\x7d;\n"]

/-- The group blocks emitted before the PBXGroup end marker (lines 123-132):
one block per category of `dir_id_map`, in its order, skipping categories with
no group-child fragments. -/
def groupBlocks (ge : String → List String) : List String :=
  dirIdMap.flatMap (fun p => if (ge p.1).isEmpty then [] else groupBlock p.1 p.2 (ge p.1))

/-- The control state of the main loop (lines 73-159): `normal` is the top of
the `while`, the other modes are its inner marker-scanning loops. -/
inductive Mode
  | normal
  | inBuildFile
  | inFileRef
  | seekFiles
  | seekClose
deriving DecidableEq, Repr

/-- The splicing pass of lines 73-159 as a state machine over the line list.
Each inner `while` of the script scans for a terminating marker line and then
indexes `lines[i]`; reaching the end of the file inside one of those scans
raises `IndexError`, modelled by `none`. -/
def spliceAux (fr bf se gb : List String) : Mode → List String → Option (List String)
  | .normal, [] => some []
  | .normal, line :: rest =>
    if isBeginBuildFile line then (spliceAux fr bf se gb .inBuildFile rest).map (line :: ·)
    else if isBeginFileRef line then (spliceAux fr bf se gb .inFileRef rest).map (line :: ·)
    else if isEndPBXGroup line then (spliceAux fr bf se gb .normal rest).map (fun o => gb ++ line :: o)
    else if isSourcesStart line then (spliceAux fr bf se gb .seekFiles rest).map (line :: ·)
    else (spliceAux fr bf se gb .normal rest).map (line :: ·)
  | .inBuildFile, [] => none
  | .inBuildFile, line :: rest =>
    if isEndBuildFile line then (spliceAux fr bf se gb .normal rest).map (fun o => bf ++ line :: o)
    else (spliceAux fr bf se gb .inBuildFile rest).map (line :: ·)
  | .inFileRef, [] => none
  | .inFileRef, line :: rest =>
    if isEndFileRef line then (spliceAux fr bf se gb .normal rest).map (fun o => fr ++ line :: o)
    else if isDroppedFolderLine line then spliceAux fr bf se gb .inFileRef rest
    else (spliceAux fr bf se gb .inFileRef rest).map (line :: ·)
  | .seekFiles, [] => none
  | .seekFiles, line :: rest =>
    if hasFilesOpen line then (spliceAux fr bf se gb .seekClose rest).map (line :: ·)
    else (spliceAux fr bf se gb .seekFiles rest).map (line :: ·)
  | .seekClose, [] => none
  | .seekClose, line :: rest =>
    if hasCloseParen line then (spliceAux fr bf se gb .normal rest).map (fun o => se ++ line :: o)
    else (spliceAux fr bf se gb .seekClose rest).map (line :: ·)

/-- The whole splicing pass, started at the top of the main loop. -/
def splice (fr bf se gb : List String) (lines : List String) : Option (List String) :=
  spliceAux fr bf se gb .normal lines

/-- The full run on a given filesystem and manifest: discovery, fragment
generation, then splicing. -/
def runPatch (fs : FS) (manifest : List String) : Option (List String) :=
  splice (fileRefEntries (filesToAdd fs)) (buildFileEntries (filesToAdd fs))
    (sourcesEntries (filesToAdd fs)) (groupBlocks (groupEntriesOf (filesToAdd fs))) manifest

/-- Modelled from the spec: the lines of the original manifest that the spec
says must survive into the output — every line except a folder-type reference
line for a watched category encountered inside the file-reference region
("copy each line through UNLESS it is a folder-type reference whose comment
names one of the fixed category directories"). Region tracking follows the
marker tests; nothing is inserted and nothing else is removed. -/
def specKeptLines : Mode → List String → List String
  | _, [] => []
  | .normal, line :: rest =>
    if isBeginBuildFile line then line :: specKeptLines .inBuildFile rest
    else if isBeginFileRef line then line :: specKeptLines .inFileRef rest
    else if isEndPBXGroup line then line :: specKeptLines .normal rest
    else if isSourcesStart line then line :: specKeptLines .seekFiles rest
    else line :: specKeptLines .normal rest
  | .inBuildFile, line :: rest =>
    if isEndBuildFile line then line :: specKeptLines .normal rest
    else line :: specKeptLines .inBuildFile rest
  | .inFileRef, line :: rest =>
    if isEndFileRef line then line :: specKeptLines .normal rest
    else if isDroppedFolderLine line then specKeptLines .inFileRef rest
    else line :: specKeptLines .inFileRef rest
  | .seekFiles, line :: rest =>
    if hasFilesOpen line then line :: specKeptLines .seekClose rest
    else line :: specKeptLines .seekFiles rest
  | .seekClose, line :: rest =>
    if hasCloseParen line then line :: specKeptLines .normal rest
    else line :: specKeptLines .seekClose rest


/-- A well-formed top-level unit of a manifest, as the scan of lines 73-159
sees it: a quiet line triggering no region, or one complete region of one of
the four kinds with its markers present. Used to state for which manifests
the pass degrades silently per region. -/
inductive Seg
  | quiet (l : String)
  | buildFile (bb : String) (body : List String) (be : String)
  | fileRef (fb : String) (body : List String) (fe : String)
  | group (gl : String)
  | sources (hdr : String) (body1 : List String) (fl : String) (body2 : List String) (cl : String)

/-- The manifest text of one unit. -/
def Seg.lines : Seg → List String
  | .quiet l => [l]
  | .buildFile bb body be => bb :: body ++ [be]
  | .fileRef fb body fe => fb :: body ++ [fe]
  | .group gl => [gl]
  | .sources hdr b1 fl b2 cl => hdr :: b1 ++ fl :: b2 ++ [cl]

/-- The spliced output of one unit, following the region table of the spec:
a build-file region gains the build-file fragments before its end marker, a
file-reference region drops watched folder lines and gains the
file-reference fragments, the group end marker is preceded by the group
blocks, the sources list gains the sources-phase fragments before its
closer, and a quiet line is copied. -/
def Seg.out (fr bf se gb : List String) : Seg → List String
  | .quiet l => [l]
  | .buildFile bb body be => bb :: body ++ bf ++ [be]
  | .fileRef fb body fe => fb :: body.filter (fun l => !isDroppedFolderLine l) ++ fr ++ [fe]
  | .group gl => gb ++ [gl]
  | .sources hdr b1 fl b2 cl => hdr :: b1 ++ fl :: b2 ++ se ++ [cl]

/-- Well-formedness of a unit: its trigger line reaches the right branch of
the if-chain of lines 79-139, its interior holds no terminating marker, and
its terminating marker is present. -/
def Seg.ok : Seg → Bool
  | .quiet l => triggersNone l
  | .buildFile bb body be =>
    isBeginBuildFile bb && body.all (fun l => !isEndBuildFile l) && isEndBuildFile be
  | .fileRef fb body fe =>
    !isBeginBuildFile fb && isBeginFileRef fb &&
      body.all (fun l => !isEndFileRef l) && isEndFileRef fe
  | .group gl => !isBeginBuildFile gl && !isBeginFileRef gl && isEndPBXGroup gl
  | .sources hdr b1 fl b2 cl =>
    !isBeginBuildFile hdr && !isBeginFileRef hdr && !isEndPBXGroup hdr &&
      isSourcesStart hdr && b1.all (fun l => !hasFilesOpen l) && hasFilesOpen fl &&
      b2.all (fun l => !hasCloseParen l) && hasCloseParen cl

/-- Whether a unit is a build-file region. -/
def Seg.isBuildFileSeg : Seg → Bool
  | .buildFile _ _ _ => true
  | _ => false

/-- Whether a unit is a file-reference region. -/
def Seg.isFileRefSeg : Seg → Bool
  | .fileRef _ _ _ => true
  | _ => false

/-- Whether a unit is a group-section end marker. -/
def Seg.isGroupSeg : Seg → Bool
  | .group _ => true
  | _ => false

/-- Whether a unit is a sources build phase. -/
def Seg.isSourcesSeg : Seg → Bool
  | .sources _ _ _ _ _ => true
  | _ => false

/-! ### Concrete run data used by the scenario claims -/

/-- Filesystem of the two-file scenario: `Views/A.swift` and `Models/B.swift`
exist, every other category directory is missing. -/
def fsC7 : FS :=
  { dirExists := fun d => d == "Views" || d == "Models",
    dirFiles := fun d =>
      if d == "Views" then ["A.swift"] else if d == "Models" then ["B.swift"] else [] }

/-- A manifest containing all four injection markers. -/
def manifC7 : List String :=
  ["// !$*UTF8*$!\n",
   "/* Begin PBXBuildFile section */\n",
   "\t\tAA0000020000000000000001 /* ContentView.swift in Sources */ = \x7bisa = PBXBuildFile; fileRef = AA0000010000000000000001 /* ContentView.swift */; \x7d;\n",
   "/* End PBXBuildFile section */\n",
   "/* Begin PBXFileReference section */\n",
   "\t\tAA0000010000000000000001 /* ContentView.swift */ = \x7bisa = PBXFileReference; lastKnownFileType = sourcecode.swift; path = ContentView.swift; sourceTree = \"<group>\"; \x7d;\n",
   "/* End PBXFileReference section */\n",
   "/* End PBXGroup section */\n",
   "\t\tAA9999940000000000000001 /* Sources */ = \x7b\n",
   "\t\t\tisa = PBXSourcesBuildPhase;\n",
   "\t\t\tfiles = (\n",
   "\t\t\t\tAA0000020000000000000001 /* ContentView.swift in Sources */,\n",
   "\t\t\t);\n",
   "\t\t\trunOnlyForDeploymentPostprocessing = 0;\n"]

/-- Output of the first run on `manifC7`. -/
def outC7a : List String :=
  ["// !$*UTF8*$!\n",
   "/* Begin PBXBuildFile section */\n",
   "\t\tAA0000020000000000000001 /* ContentView.swift in Sources */ = \x7bisa = PBXBuildFile; fileRef = AA0000010000000000000001 /* ContentView.swift */; \x7d;\n",
   "\t\tCC00000000000000005000 /* A.swift in Sources */ = \x7bisa = PBXBuildFile; fileRef = BB00000000000000005000 /* A.swift */; \x7d;\n",
   "\t\tCC00000000000000005001 /* B.swift in Sources */ = \x7bisa = PBXBuildFile; fileRef = BB00000000000000005001 /* B.swift */; \x7d;\n",
   "/* End PBXBuildFile section */\n",
   "/* Begin PBXFileReference section */\n",
   "\t\tAA0000010000000000000001 /* ContentView.swift */ = \x7bisa = PBXFileReference; lastKnownFileType = sourcecode.swift; path = ContentView.swift; sourceTree = \"<group>\"; \x7d;\n",
   "\t\tBB00000000000000005000 /* A.swift */ = \x7bisa = PBXFileReference; lastKnownFileType = sourcecode.swift; path = A.swift; sourceTree = \"<group>\"; \x7d;\n",
   "\t\tBB00000000000000005001 /* B.swift */ = \x7bisa = PBXFileReference; lastKnownFileType = sourcecode.swift; path = B.swift; sourceTree = \"<group>\"; \x7d;\n",
   "/* End PBXFileReference section */\n",
   "\t\tAA0000100000000000000001 /* Models */ = \x7b\n",
   "\t\t\tisa = PBXGroup;\n",
   "\t\t\tchildren = (\n",
   "\t\t\t\tBB00000000000000005001 /* B.swift */,\n",
   "\t\t\t);\n",
   "\t\t\tpath = Models;\n",
   "\t\t\tsourceTree = \"<group>\";\n",
   "\t\t\x7d;\n",
   "\t\tAA0000120000000000000001 /* Views */ = \x7b\n",
   "\t\t\tisa = PBXGroup;\n",
   "\t\t\tchildren = (\n",
   "\t\t\t\tBB00000000000000005000 /* A.swift */,\n",
   "\t\t\t);\n",
   "\t\t\tpath = Views;\n",
   "\t\t\tsourceTree = \"<group>\";\n",
   "\t\t\x7d;\n",
   "/* End PBXGroup section */\n",
   "\t\tAA9999940000000000000001 /* Sources */ = \x7b\n",
   "\t\t\tisa = PBXSourcesBuildPhase;\n",
   "\t\t\tfiles = (\n",
   "\t\t\t\tAA0000020000000000000001 /* ContentView.swift in Sources */,\n",
   "\t\t\t\tCC00000000000000005000 /* A.swift in Sources */,\n",
   "\t\t\t\tCC00000000000000005001 /* B.swift in Sources */,\n",
   "\t\t\t);\n",
   "\t\t\trunOnlyForDeploymentPostprocessing = 0;\n"]
/-- Output of a second run applied to the output of the first run. -/
def outC7b : List String :=
  ["// !$*UTF8*$!\n",
   "/* Begin PBXBuildFile section */\n",
   "\t\tAA0000020000000000000001 /* ContentView.swift in Sources */ = \x7bisa = PBXBuildFile; fileRef = AA0000010000000000000001 /* ContentView.swift */; \x7d;\n",
   "\t\tCC00000000000000005000 /* A.swift in Sources */ = \x7bisa = PBXBuildFile; fileRef = BB00000000000000005000 /* A.swift */; \x7d;\n",
   "\t\tCC00000000000000005001 /* B.swift in Sources */ = \x7bisa = PBXBuildFile; fileRef = BB00000000000000005001 /* B.swift */; \x7d;\n",
   "\t\tCC00000000000000005000 /* A.swift in Sources */ = \x7bisa = PBXBuildFile; fileRef = BB00000000000000005000 /* A.swift */; \x7d;\n",
   "\t\tCC00000000000000005001 /* B.swift in Sources */ = \x7bisa = PBXBuildFile; fileRef = BB00000000000000005001 /* B.swift */; \x7d;\n",
   "/* End PBXBuildFile section */\n",
   "/* Begin PBXFileReference section */\n",
   "\t\tAA0000010000000000000001 /* ContentView.swift */ = \x7bisa = PBXFileReference; lastKnownFileType = sourcecode.swift; path = ContentView.swift; sourceTree = \"<group>\"; \x7d;\n",
   "\t\tBB00000000000000005000 /* A.swift */ = \x7bisa = PBXFileReference; lastKnownFileType = sourcecode.swift; path = A.swift; sourceTree = \"<group>\"; \x7d;\n",
   "\t\tBB00000000000000005001 /* B.swift */ = \x7bisa = PBXFileReference; lastKnownFileType = sourcecode.swift; path = B.swift; sourceTree = \"<group>\"; \x7d;\n",
   "\t\tBB00000000000000005000 /* A.swift */ = \x7bisa = PBXFileReference; lastKnownFileType = sourcecode.swift; path = A.swift; sourceTree = \"<group>\"; \x7d;\n",
   "\t\tBB00000000000000005001 /* B.swift */ = \x7bisa = PBXFileReference; lastKnownFileType = sourcecode.swift; path = B.swift; sourceTree = \"<group>\"; \x7d;\n",
   "/* End PBXFileReference section */\n",
   "\t\tAA0000100000000000000001 /* Models */ = \x7b\n",
   "\t\t\tisa = PBXGroup;\n",
   "\t\t\tchildren = (\n",
   "\t\t\t\tBB00000000000000005001 /* B.swift */,\n",
   "\t\t\t);\n",
   "\t\t\tpath = Models;\n",
   "\t\t\tsourceTree = \"<group>\";\n",
   "\t\t\x7d;\n",
   "\t\tAA0000120000000000000001 /* Views */ = \x7b\n",
   "\t\t\tisa = PBXGroup;\n",
   "\t\t\tchildren = (\n",
   "\t\t\t\tBB00000000000000005000 /* A.swift */,\n",
   "\t\t\t);\n",
   "\t\t\tpath = Views;\n",
   "\t\t\tsourceTree = \"<group>\";\n",
   "\t\t\x7d;\n",
   "\t\tAA0000100000000000000001 /* Models */ = \x7b\n",
   "\t\t\tisa = PBXGroup;\n",
   "\t\t\tchildren = (\n",
   "\t\t\t\tBB00000000000000005001 /* B.swift */,\n",
   "\t\t\t);\n",
   "\t\t\tpath = Models;\n",
   "\t\t\tsourceTree = \"<group>\";\n",
   "\t\t\x7d;\n",
   "\t\tAA0000120000000000000001 /* Views */ = \x7b\n",
   "\t\t\tisa = PBXGroup;\n",
   "\t\t\tchildren = (\n",
   "\t\t\t\tBB00000000000000005000 /* A.swift */,\n",
   "\t\t\t);\n",
   "\t\t\tpath = Views;\n",
   "\t\t\tsourceTree = \"<group>\";\n",
   "\t\t\x7d;\n",
   "/* End PBXGroup section */\n",
   "\t\tAA9999940000000000000001 /* Sources */ = \x7b\n",
   "\t\t\tisa = PBXSourcesBuildPhase;\n",
   "\t\t\tfiles = (\n",
   "\t\t\t\tAA0000020000000000000001 /* ContentView.swift in Sources */,\n",
   "\t\t\t\tCC00000000000000005000 /* A.swift in Sources */,\n",
   "\t\t\t\tCC00000000000000005001 /* B.swift in Sources */,\n",
   "\t\t\t\tCC00000000000000005000 /* A.swift in Sources */,\n",
   "\t\t\t\tCC00000000000000005001 /* B.swift in Sources */,\n",
   "\t\t\t);\n",
   "\t\t\trunOnlyForDeploymentPostprocessing = 0;\n"]
/-- Filesystem with no category directory present. -/
def fsNone : FS := { dirExists := fun _ => false, dirFiles := fun _ => [] }

/-- A manifest whose file-reference region holds one watched-category
folder-reference line. -/
def manifC10 : List String :=
  ["/* Begin PBXFileReference section */\n",
   "\t\tAA0000030000000000000001 /* Views */ = \x7bisa = PBXFileReference; lastKnownFileType = folder; path = Views; sourceTree = \"<group>\"; \x7d;\n",
   "/* End PBXFileReference section */\n"]

/-- Output of the run with no discovered files on `manifC10`. -/
def outC10 : List String :=
  ["/* Begin PBXFileReference section */\n",
   "/* End PBXFileReference section */\n"]

/-! ### Helper lemmas about the splicing state machine -/

theorem triggersNone_spec {l : String} (h : triggersNone l = true) :
    isBeginBuildFile l = false ∧ isBeginFileRef l = false ∧
      isEndPBXGroup l = false ∧ isSourcesStart l = false := by
  simp only [triggersNone, Bool.not_eq_true', Bool.or_eq_false_iff] at h
  exact ⟨h.1.1.1, h.1.1.2, h.1.2, h.2⟩

theorem spliceAux_append_quiet (fr bf se gb A rest : List String)
    (hA : ∀ l ∈ A, triggersNone l = true) :
    spliceAux fr bf se gb .normal (A ++ rest)
      = (spliceAux fr bf se gb .normal rest).map (A ++ ·) := by
  induction A with
  | nil => simp
  | cons a A ih =>
    obtain ⟨h1, h2, h3, h4⟩ := triggersNone_spec (hA a (by simp))
    have ih' := ih (fun l hl => hA l (by simp [hl]))
    simp [spliceAux, h1, h2, h3, h4, ih', Option.map_map, Function.comp_def]

theorem spliceAux_quiet (fr bf se gb A : List String)
    (hA : ∀ l ∈ A, triggersNone l = true) :
    spliceAux fr bf se gb .normal A = some A := by
  have := spliceAux_append_quiet fr bf se gb A [] hA
  simpa [spliceAux] using this

theorem spliceAux_buildFileRegion (fr bf se gb B rest : List String) (e : String)
    (hB : ∀ l ∈ B, isEndBuildFile l = false) (he : isEndBuildFile e = true) :
    spliceAux fr bf se gb .inBuildFile (B ++ e :: rest)
      = (spliceAux fr bf se gb .normal rest).map (fun o => B ++ bf ++ e :: o) := by
  induction B with
  | nil => simp [spliceAux, he]
  | cons b B ih =>
    have hb := hB b (by simp)
    have ih' := ih (fun l hl => hB l (by simp [hl]))
    simp [spliceAux, hb, ih', Option.map_map, Function.comp_def]

theorem spliceAux_fileRefRegion (fr bf se gb D rest : List String) (e : String)
    (hD : ∀ l ∈ D, isEndFileRef l = false) (he : isEndFileRef e = true) :
    spliceAux fr bf se gb .inFileRef (D ++ e :: rest)
      = (spliceAux fr bf se gb .normal rest).map
          (fun o => D.filter (fun l => !isDroppedFolderLine l) ++ fr ++ e :: o) := by
  induction D with
  | nil => simp [spliceAux, he]
  | cons d D ih =>
    have hd := hD d (by simp)
    have ih' := ih (fun l hl => hD l (by simp [hl]))
    by_cases hdrop : isDroppedFolderLine d
    · simp [spliceAux, hd, hdrop, ih']
    · simp [spliceAux, hd, hdrop, ih', Option.map_map, Function.comp_def]

theorem spliceAux_seekFilesRegion (fr bf se gb P rest : List String) (fl : String)
    (hP : ∀ l ∈ P, hasFilesOpen l = false) (hfl : hasFilesOpen fl = true) :
    spliceAux fr bf se gb .seekFiles (P ++ fl :: rest)
      = (spliceAux fr bf se gb .seekClose rest).map (fun o => P ++ fl :: o) := by
  induction P with
  | nil => simp [spliceAux, hfl]
  | cons p P ih =>
    have hp := hP p (by simp)
    have ih' := ih (fun l hl => hP l (by simp [hl]))
    simp [spliceAux, hp, ih', Option.map_map, Function.comp_def]

theorem spliceAux_seekCloseRegion (fr bf se gb Q rest : List String) (cl : String)
    (hQ : ∀ l ∈ Q, hasCloseParen l = false) (hcl : hasCloseParen cl = true) :
    spliceAux fr bf se gb .seekClose (Q ++ cl :: rest)
      = (spliceAux fr bf se gb .normal rest).map (fun o => Q ++ se ++ cl :: o) := by
  induction Q with
  | nil => simp [spliceAux, hcl]
  | cons q Q ih =>
    have hq := hQ q (by simp)
    have ih' := ih (fun l hl => hQ l (by simp [hl]))
    simp [spliceAux, hq, ih', Option.map_map, Function.comp_def]

theorem spliceAux_append_complete (fr bf se gb : List String) :
    ∀ (pre : List String) (m : Mode) (preOut X : List String),
      spliceAux fr bf se gb m pre = some preOut →
      spliceAux fr bf se gb m (pre ++ X)
        = (spliceAux fr bf se gb .normal X).map (preOut ++ ·) := by
  intro pre
  induction pre with
  | nil =>
    intro m preOut X h
    cases m <;> simp only [spliceAux, Option.some.injEq, reduceCtorEq] at h
    subst h
    simp
  | cons line rest ih =>
    intro m preOut X h
    rw [List.cons_append]
    cases m with
    | normal =>
      by_cases h1 : isBeginBuildFile line
      · rw [show spliceAux fr bf se gb .normal (line :: rest)
              = (spliceAux fr bf se gb .inBuildFile rest).map (line :: ·) by
            simp [spliceAux, h1]] at h
        obtain ⟨o, ho, rfl⟩ := Option.map_eq_some'.mp h
        rw [show spliceAux fr bf se gb .normal (line :: (rest ++ X))
              = (spliceAux fr bf se gb .inBuildFile (rest ++ X)).map (line :: ·) by
            simp [spliceAux, h1],
          ih _ _ _ ho, Option.map_map]
        rfl
      · by_cases h2 : isBeginFileRef line
        · rw [show spliceAux fr bf se gb .normal (line :: rest)
                = (spliceAux fr bf se gb .inFileRef rest).map (line :: ·) by
              simp [spliceAux, h1, h2]] at h
          obtain ⟨o, ho, rfl⟩ := Option.map_eq_some'.mp h
          rw [show spliceAux fr bf se gb .normal (line :: (rest ++ X))
                = (spliceAux fr bf se gb .inFileRef (rest ++ X)).map (line :: ·) by
              simp [spliceAux, h1, h2],
            ih _ _ _ ho, Option.map_map]
          rfl
        · by_cases h3 : isEndPBXGroup line
          · rw [show spliceAux fr bf se gb .normal (line :: rest)
                  = (spliceAux fr bf se gb .normal rest).map (fun o => gb ++ line :: o) by
                simp [spliceAux, h1, h2, h3]] at h
            obtain ⟨o, ho, rfl⟩ := Option.map_eq_some'.mp h
            rw [show spliceAux fr bf se gb .normal (line :: (rest ++ X))
                  = (spliceAux fr bf se gb .normal (rest ++ X)).map
                      (fun o => gb ++ line :: o) by
                simp [spliceAux, h1, h2, h3],
              ih _ _ _ ho, Option.map_map]
            simp [Function.comp_def, List.append_assoc]
          · by_cases h4 : isSourcesStart line
            · rw [show spliceAux fr bf se gb .normal (line :: rest)
                    = (spliceAux fr bf se gb .seekFiles rest).map (line :: ·) by
                  simp [spliceAux, h1, h2, h3, h4]] at h
              obtain ⟨o, ho, rfl⟩ := Option.map_eq_some'.mp h
              rw [show spliceAux fr bf se gb .normal (line :: (rest ++ X))
                    = (spliceAux fr bf se gb .seekFiles (rest ++ X)).map (line :: ·) by
                  simp [spliceAux, h1, h2, h3, h4],
                ih _ _ _ ho, Option.map_map]
              rfl
            · rw [show spliceAux fr bf se gb .normal (line :: rest)
                    = (spliceAux fr bf se gb .normal rest).map (line :: ·) by
                  simp [spliceAux, h1, h2, h3, h4]] at h
              obtain ⟨o, ho, rfl⟩ := Option.map_eq_some'.mp h
              rw [show spliceAux fr bf se gb .normal (line :: (rest ++ X))
                    = (spliceAux fr bf se gb .normal (rest ++ X)).map (line :: ·) by
                  simp [spliceAux, h1, h2, h3, h4],
                ih _ _ _ ho, Option.map_map]
              rfl
    | inBuildFile =>
      by_cases h1 : isEndBuildFile line
      · rw [show spliceAux fr bf se gb .inBuildFile (line :: rest)
              = (spliceAux fr bf se gb .normal rest).map (fun o => bf ++ line :: o) by
            simp [spliceAux, h1]] at h
        obtain ⟨o, ho, rfl⟩ := Option.map_eq_some'.mp h
        rw [show spliceAux fr bf se gb .inBuildFile (line :: (rest ++ X))
              = (spliceAux fr bf se gb .normal (rest ++ X)).map (fun o => bf ++ line :: o) by
            simp [spliceAux, h1],
          ih _ _ _ ho, Option.map_map]
        simp [Function.comp_def, List.append_assoc]
      · rw [show spliceAux fr bf se gb .inBuildFile (line :: rest)
              = (spliceAux fr bf se gb .inBuildFile rest).map (line :: ·) by
            simp [spliceAux, h1]] at h
        obtain ⟨o, ho, rfl⟩ := Option.map_eq_some'.mp h
        rw [show spliceAux fr bf se gb .inBuildFile (line :: (rest ++ X))
              = (spliceAux fr bf se gb .inBuildFile (rest ++ X)).map (line :: ·) by
            simp [spliceAux, h1],
          ih _ _ _ ho, Option.map_map]
        rfl
    | inFileRef =>
      by_cases h1 : isEndFileRef line
      · rw [show spliceAux fr bf se gb .inFileRef (line :: rest)
              = (spliceAux fr bf se gb .normal rest).map (fun o => fr ++ line :: o) by
            simp [spliceAux, h1]] at h
        obtain ⟨o, ho, rfl⟩ := Option.map_eq_some'.mp h
        rw [show spliceAux fr bf se gb .inFileRef (line :: (rest ++ X))
              = (spliceAux fr bf se gb .normal (rest ++ X)).map (fun o => fr ++ line :: o) by
            simp [spliceAux, h1],
          ih _ _ _ ho, Option.map_map]
        simp [Function.comp_def, List.append_assoc]
      · by_cases h2 : isDroppedFolderLine line
        · rw [show spliceAux fr bf se gb .inFileRef (line :: rest)
                = spliceAux fr bf se gb .inFileRef rest by
              simp [spliceAux, h1, h2]] at h
          rw [show spliceAux fr bf se gb .inFileRef (line :: (rest ++ X))
                = spliceAux fr bf se gb .inFileRef (rest ++ X) by
              simp [spliceAux, h1, h2]]
          exact ih _ _ _ h
        · rw [show spliceAux fr bf se gb .inFileRef (line :: rest)
                = (spliceAux fr bf se gb .inFileRef rest).map (line :: ·) by
              simp [spliceAux, h1, h2]] at h
          obtain ⟨o, ho, rfl⟩ := Option.map_eq_some'.mp h
          rw [show spliceAux fr bf se gb .inFileRef (line :: (rest ++ X))
                = (spliceAux fr bf se gb .inFileRef (rest ++ X)).map (line :: ·) by
              simp [spliceAux, h1, h2],
            ih _ _ _ ho, Option.map_map]
          rfl
    | seekFiles =>
      by_cases h1 : hasFilesOpen line
      · rw [show spliceAux fr bf se gb .seekFiles (line :: rest)
              = (spliceAux fr bf se gb .seekClose rest).map (line :: ·) by
            simp [spliceAux, h1]] at h
        obtain ⟨o, ho, rfl⟩ := Option.map_eq_some'.mp h
        rw [show spliceAux fr bf se gb .seekFiles (line :: (rest ++ X))
              = (spliceAux fr bf se gb .seekClose (rest ++ X)).map (line :: ·) by
            simp [spliceAux, h1],
          ih _ _ _ ho, Option.map_map]
        rfl
      · rw [show spliceAux fr bf se gb .seekFiles (line :: rest)
              = (spliceAux fr bf se gb .seekFiles rest).map (line :: ·) by
            simp [spliceAux, h1]] at h
        obtain ⟨o, ho, rfl⟩ := Option.map_eq_some'.mp h
        rw [show spliceAux fr bf se gb .seekFiles (line :: (rest ++ X))
              = (spliceAux fr bf se gb .seekFiles (rest ++ X)).map (line :: ·) by
            simp [spliceAux, h1],
          ih _ _ _ ho, Option.map_map]
        rfl
    | seekClose =>
      by_cases h1 : hasCloseParen line
      · rw [show spliceAux fr bf se gb .seekClose (line :: rest)
              = (spliceAux fr bf se gb .normal rest).map (fun o => se ++ line :: o) by
            simp [spliceAux, h1]] at h
        obtain ⟨o, ho, rfl⟩ := Option.map_eq_some'.mp h
        rw [show spliceAux fr bf se gb .seekClose (line :: (rest ++ X))
              = (spliceAux fr bf se gb .normal (rest ++ X)).map (fun o => se ++ line :: o) by
            simp [spliceAux, h1],
          ih _ _ _ ho, Option.map_map]
        simp [Function.comp_def, List.append_assoc]
      · rw [show spliceAux fr bf se gb .seekClose (line :: rest)
              = (spliceAux fr bf se gb .seekClose rest).map (line :: ·) by
            simp [spliceAux, h1]] at h
        obtain ⟨o, ho, rfl⟩ := Option.map_eq_some'.mp h
        rw [show spliceAux fr bf se gb .seekClose (line :: (rest ++ X))
              = (spliceAux fr bf se gb .seekClose (rest ++ X)).map (line :: ·) by
            simp [spliceAux, h1],
          ih _ _ _ ho, Option.map_map]
        rfl

theorem spliceAux_inBuildFile_none (fr bf se gb : List String) (B : List String)
    (hB : ∀ l ∈ B, isEndBuildFile l = false) :
    spliceAux fr bf se gb .inBuildFile B = none := by
  induction B with
  | nil => rfl
  | cons b B ih =>
    have hb := hB b (by simp)
    have ih' := ih (fun l hl => hB l (by simp [hl]))
    simp [spliceAux, hb, ih']

theorem spliceAux_inFileRef_none (fr bf se gb : List String) (D : List String)
    (hD : ∀ l ∈ D, isEndFileRef l = false) :
    spliceAux fr bf se gb .inFileRef D = none := by
  induction D with
  | nil => rfl
  | cons d D ih =>
    have hd := hD d (by simp)
    have ih' := ih (fun l hl => hD l (by simp [hl]))
    by_cases hdrop : isDroppedFolderLine d
    · simp [spliceAux, hd, hdrop, ih']
    · simp [spliceAux, hd, hdrop, ih']

theorem spliceAux_seekFiles_none (fr bf se gb : List String) (P : List String)
    (hP : ∀ l ∈ P, hasFilesOpen l = false) :
    spliceAux fr bf se gb .seekFiles P = none := by
  induction P with
  | nil => rfl
  | cons p P ih =>
    have hp := hP p (by simp)
    have ih' := ih (fun l hl => hP l (by simp [hl]))
    simp [spliceAux, hp, ih']

theorem spliceAux_seekClose_none (fr bf se gb : List String) (Q : List String)
    (hQ : ∀ l ∈ Q, hasCloseParen l = false) :
    spliceAux fr bf se gb .seekClose Q = none := by
  induction Q with
  | nil => rfl
  | cons q Q ih =>
    have hq := hQ q (by simp)
    have ih' := ih (fun l hl => hQ l (by simp [hl]))
    simp [spliceAux, hq, ih']

/-! ### Claim C1 -/

/-- C1 as frozen is refuted: a manifest whose build-file begin marker is
present but whose end marker is absent makes the pass index past the end of
the line list (`IndexError` in the script), modelled by `none` — it does not
complete silently. -/
theorem claim_C1_counterexample :
    splice [] [] [] [] ["/* Begin PBXBuildFile section */\n"] = none := rfl

theorem splice_segments (fr bf se gb : List String) (segs : List Seg)
    (h : ∀ s ∈ segs, s.ok = true) :
    splice fr bf se gb (segs.flatMap Seg.lines)
      = some (segs.flatMap (Seg.out fr bf se gb)) := by
  induction segs with
  | nil => rfl
  | cons s segs ih =>
    have hs := h s (by simp)
    have ih' := ih (fun t ht => h t (by simp [ht]))
    rw [splice] at ih' ⊢
    cases s with
    | quiet l =>
      obtain ⟨h1, h2, h3, h4⟩ := triggersNone_spec hs
      rw [show ((Seg.quiet l) :: segs).flatMap Seg.lines
            = l :: segs.flatMap Seg.lines by simp [Seg.lines]]
      rw [show spliceAux fr bf se gb .normal (l :: segs.flatMap Seg.lines)
            = (spliceAux fr bf se gb .normal (segs.flatMap Seg.lines)).map (l :: ·) by
          simp [spliceAux, h1, h2, h3, h4]]
      rw [ih']
      simp [Seg.out]
    | buildFile bb body be =>
      simp only [Seg.ok, Bool.and_eq_true, List.all_eq_true, Bool.not_eq_true'] at hs
      obtain ⟨⟨hbb, hbody⟩, hbe⟩ := hs
      rw [show ((Seg.buildFile bb body be) :: segs).flatMap Seg.lines
            = bb :: (body ++ (be :: segs.flatMap Seg.lines)) by simp [Seg.lines]]
      rw [show spliceAux fr bf se gb .normal (bb :: (body ++ (be :: segs.flatMap Seg.lines)))
            = (spliceAux fr bf se gb .inBuildFile
                (body ++ (be :: segs.flatMap Seg.lines))).map (bb :: ·) by
          simp [spliceAux, hbb]]
      rw [spliceAux_buildFileRegion _ _ _ _ _ _ _ hbody hbe, ih']
      simp [Seg.out, List.append_assoc]
    | fileRef fb body fe =>
      simp only [Seg.ok, Bool.and_eq_true, List.all_eq_true, Bool.not_eq_true'] at hs
      obtain ⟨⟨⟨hfb1, hfb⟩, hbody⟩, hfe⟩ := hs
      rw [show ((Seg.fileRef fb body fe) :: segs).flatMap Seg.lines
            = fb :: (body ++ (fe :: segs.flatMap Seg.lines)) by simp [Seg.lines]]
      rw [show spliceAux fr bf se gb .normal (fb :: (body ++ (fe :: segs.flatMap Seg.lines)))
            = (spliceAux fr bf se gb .inFileRef
                (body ++ (fe :: segs.flatMap Seg.lines))).map (fb :: ·) by
          simp [spliceAux, hfb1, hfb]]
      rw [spliceAux_fileRefRegion _ _ _ _ _ _ _ hbody hfe, ih']
      simp [Seg.out, List.append_assoc]
    | group gl =>
      simp only [Seg.ok, Bool.and_eq_true, Bool.not_eq_true'] at hs
      obtain ⟨⟨h1, h2⟩, hg⟩ := hs
      rw [show ((Seg.group gl) :: segs).flatMap Seg.lines
            = gl :: segs.flatMap Seg.lines by simp [Seg.lines]]
      rw [show spliceAux fr bf se gb .normal (gl :: segs.flatMap Seg.lines)
            = (spliceAux fr bf se gb .normal (segs.flatMap Seg.lines)).map
                (fun o => gb ++ gl :: o) by
          simp [spliceAux, h1, h2, hg]]
      rw [ih']
      simp [Seg.out, List.append_assoc]
    | sources hdr b1 fl b2 cl =>
      simp only [Seg.ok, Bool.and_eq_true, List.all_eq_true, Bool.not_eq_true'] at hs
      obtain ⟨⟨⟨⟨⟨⟨⟨h1, h2⟩, h3⟩, h4⟩, hb1⟩, hfl⟩, hb2⟩, hcl⟩ := hs
      rw [show ((Seg.sources hdr b1 fl b2 cl) :: segs).flatMap Seg.lines
            = hdr :: (b1 ++ (fl :: (b2 ++ (cl :: segs.flatMap Seg.lines)))) by
          simp [Seg.lines]]
      rw [show spliceAux fr bf se gb .normal
            (hdr :: (b1 ++ (fl :: (b2 ++ (cl :: segs.flatMap Seg.lines)))))
            = (spliceAux fr bf se gb .seekFiles
                (b1 ++ (fl :: (b2 ++ (cl :: segs.flatMap Seg.lines))))).map (hdr :: ·) by
          simp [spliceAux, h1, h2, h3, h4]]
      rw [spliceAux_seekFilesRegion _ _ _ _ _ _ _ hb1 hfl]
      rw [spliceAux_seekCloseRegion _ _ _ _ _ _ _ hb2 hcl, ih']
      simp [Seg.out, List.append_assoc]

theorem segOut_indep_se (fr bf se se' gb : List String) (segs : List Seg)
    (h : ∀ s ∈ segs, s.isSourcesSeg = false) :
    segs.flatMap (Seg.out fr bf se gb) = segs.flatMap (Seg.out fr bf se' gb) := by
  induction segs with
  | nil => rfl
  | cons s segs ih =>
    have hs := h s (by simp)
    have ih' := ih (fun t ht => h t (by simp [ht]))
    cases s with
    | sources hdr b1 fl b2 cl => simp [Seg.isSourcesSeg] at hs
    | quiet l => simp [Seg.out, ih']
    | buildFile bb body be => simp [Seg.out, ih']
    | fileRef fb body fe => simp [Seg.out, ih']
    | group gl => simp [Seg.out, ih']

theorem segOut_indep_fr (fr fr' bf se gb : List String) (segs : List Seg)
    (h : ∀ s ∈ segs, s.isFileRefSeg = false) :
    segs.flatMap (Seg.out fr bf se gb) = segs.flatMap (Seg.out fr' bf se gb) := by
  induction segs with
  | nil => rfl
  | cons s segs ih =>
    have hs := h s (by simp)
    have ih' := ih (fun t ht => h t (by simp [ht]))
    cases s with
    | fileRef fb body fe => simp [Seg.isFileRefSeg] at hs
    | quiet l => simp [Seg.out, ih']
    | buildFile bb body be => simp [Seg.out, ih']
    | group gl => simp [Seg.out, ih']
    | sources hdr b1 fl b2 cl => simp [Seg.out, ih']

theorem segOut_indep_bf (fr bf bf' se gb : List String) (segs : List Seg)
    (h : ∀ s ∈ segs, s.isBuildFileSeg = false) :
    segs.flatMap (Seg.out fr bf se gb) = segs.flatMap (Seg.out fr bf' se gb) := by
  induction segs with
  | nil => rfl
  | cons s segs ih =>
    have hs := h s (by simp)
    have ih' := ih (fun t ht => h t (by simp [ht]))
    cases s with
    | buildFile bb body be => simp [Seg.isBuildFileSeg] at hs
    | quiet l => simp [Seg.out, ih']
    | fileRef fb body fe => simp [Seg.out, ih']
    | group gl => simp [Seg.out, ih']
    | sources hdr b1 fl b2 cl => simp [Seg.out, ih']

theorem segOut_indep_gb (fr bf se gb gb' : List String) (segs : List Seg)
    (h : ∀ s ∈ segs, s.isGroupSeg = false) :
    segs.flatMap (Seg.out fr bf se gb) = segs.flatMap (Seg.out fr bf se gb') := by
  induction segs with
  | nil => rfl
  | cons s segs ih =>
    have hs := h s (by simp)
    have ih' := ih (fun t ht => h t (by simp [ht]))
    cases s with
    | group gl => simp [Seg.isGroupSeg] at hs
    | quiet l => simp [Seg.out, ih']
    | buildFile bb body be => simp [Seg.out, ih']
    | fileRef fb body fe => simp [Seg.out, ih']
    | sources hdr b1 fl b2 cl => simp [Seg.out, ih']

/-- C1 (amended): for every input manifest that is a sequence of well-formed
top-level units — quiet lines and complete marker-delimited regions of any
of the four kinds, in any order — the splicing pass completes without
raising any error, each unit producing its usual output; any region kind
whose marker lines are absent from the manifest never triggers, and its
fragments are silently omitted: the output does not depend on that fragment
list at all, all other content being produced as usual. When the scan does
enter a region at the top level whose terminating marker is absent from the
rest of the manifest (build-file or file-reference end marker, or the
files-list opener or closer of the build phase), the pass instead raises an
out-of-range indexing error, modelled by `none`. -/
theorem claim_C1 :
    (∀ (fr bf se gb : List String) (segs : List Seg), (∀ s ∈ segs, s.ok = true) →
        splice fr bf se gb (segs.flatMap Seg.lines)
          = some (segs.flatMap (Seg.out fr bf se gb))) ∧
    (∀ (fr bf se se' gb : List String) (segs : List Seg),
        (∀ s ∈ segs, s.isSourcesSeg = false) →
        segs.flatMap (Seg.out fr bf se gb) = segs.flatMap (Seg.out fr bf se' gb)) ∧
    (∀ (fr fr' bf se gb : List String) (segs : List Seg),
        (∀ s ∈ segs, s.isFileRefSeg = false) →
        segs.flatMap (Seg.out fr bf se gb) = segs.flatMap (Seg.out fr' bf se gb)) ∧
    (∀ (fr bf bf' se gb : List String) (segs : List Seg),
        (∀ s ∈ segs, s.isBuildFileSeg = false) →
        segs.flatMap (Seg.out fr bf se gb) = segs.flatMap (Seg.out fr bf' se gb)) ∧
    (∀ (fr bf se gb gb' : List String) (segs : List Seg),
        (∀ s ∈ segs, s.isGroupSeg = false) →
        segs.flatMap (Seg.out fr bf se gb) = segs.flatMap (Seg.out fr bf se gb')) ∧
    (∀ (fr bf se gb pre preOut B : List String) (bb : String),
        spliceAux fr bf se gb .normal pre = some preOut →
        isBeginBuildFile bb = true → (∀ l ∈ B, isEndBuildFile l = false) →
        splice fr bf se gb (pre ++ bb :: B) = none) ∧
    (∀ (fr bf se gb pre preOut D : List String) (fb : String),
        spliceAux fr bf se gb .normal pre = some preOut →
        isBeginBuildFile fb = false → isBeginFileRef fb = true →
        (∀ l ∈ D, isEndFileRef l = false) →
        splice fr bf se gb (pre ++ fb :: D) = none) ∧
    (∀ (fr bf se gb pre preOut P : List String) (hdr : String),
        spliceAux fr bf se gb .normal pre = some preOut →
        isBeginBuildFile hdr = false → isBeginFileRef hdr = false →
        isEndPBXGroup hdr = false → isSourcesStart hdr = true →
        (∀ l ∈ P, hasFilesOpen l = false) →
        splice fr bf se gb (pre ++ hdr :: P) = none) ∧
    (∀ (fr bf se gb pre preOut b1 Q : List String) (hdr fl : String),
        spliceAux fr bf se gb .normal pre = some preOut →
        isBeginBuildFile hdr = false → isBeginFileRef hdr = false →
        isEndPBXGroup hdr = false → isSourcesStart hdr = true →
        (∀ l ∈ b1, hasFilesOpen l = false) → hasFilesOpen fl = true →
        (∀ l ∈ Q, hasCloseParen l = false) →
        splice fr bf se gb (pre ++ hdr :: (b1 ++ fl :: Q)) = none) := by
  refine ⟨splice_segments, segOut_indep_se, segOut_indep_fr, segOut_indep_bf,
    segOut_indep_gb, ?_, ?_, ?_, ?_⟩
  · intro fr bf se gb pre preOut B bb hpre hbb hB
    rw [splice, spliceAux_append_complete fr bf se gb pre .normal preOut _ hpre]
    rw [show spliceAux fr bf se gb .normal (bb :: B)
          = (spliceAux fr bf se gb .inBuildFile B).map (bb :: ·) by
        simp [spliceAux, hbb]]
    rw [spliceAux_inBuildFile_none fr bf se gb B hB]
    rfl
  · intro fr bf se gb pre preOut D fb hpre hfb1 hfb hD
    rw [splice, spliceAux_append_complete fr bf se gb pre .normal preOut _ hpre]
    rw [show spliceAux fr bf se gb .normal (fb :: D)
          = (spliceAux fr bf se gb .inFileRef D).map (fb :: ·) by
        simp [spliceAux, hfb1, hfb]]
    rw [spliceAux_inFileRef_none fr bf se gb D hD]
    rfl
  · intro fr bf se gb pre preOut P hdr hpre h1 h2 h3 h4 hP
    rw [splice, spliceAux_append_complete fr bf se gb pre .normal preOut _ hpre]
    rw [show spliceAux fr bf se gb .normal (hdr :: P)
          = (spliceAux fr bf se gb .seekFiles P).map (hdr :: ·) by
        simp [spliceAux, h1, h2, h3, h4]]
    rw [spliceAux_seekFiles_none fr bf se gb P hP]
    rfl
  · intro fr bf se gb pre preOut b1 Q hdr fl hpre h1 h2 h3 h4 hb1 hfl hQ
    rw [splice, spliceAux_append_complete fr bf se gb pre .normal preOut _ hpre]
    rw [show spliceAux fr bf se gb .normal (hdr :: (b1 ++ fl :: Q))
          = (spliceAux fr bf se gb .seekFiles (b1 ++ fl :: Q)).map (hdr :: ·) by
        simp [spliceAux, h1, h2, h3, h4]]
    rw [spliceAux_seekFilesRegion _ _ _ _ _ _ _ hb1 hfl]
    rw [spliceAux_seekClose_none fr bf se gb Q hQ]
    rfl

/-- Witness for C1: a manifest consisting of a complete build-file region
followed by a quiet line splices successfully with only that region
injected, its output does not depend on the sources fragments, and a
build-file begin marker after a quiet prefix with no end marker in the
remainder makes the pass fail. -/
theorem claim_C1_witness :
    splice ["F\n"] ["B\n"] ["S\n"] ["G\n"]
        (([Seg.buildFile "/* Begin PBXBuildFile section */\n" ["old\n"]
            "/* End PBXBuildFile section */\n",
          Seg.quiet "x\n"]).flatMap Seg.lines)
      = some (([Seg.buildFile "/* Begin PBXBuildFile section */\n" ["old\n"]
            "/* End PBXBuildFile section */\n",
          Seg.quiet "x\n"]).flatMap (Seg.out ["F\n"] ["B\n"] ["S\n"] ["G\n"])) ∧
    ([Seg.buildFile "/* Begin PBXBuildFile section */\n" ["old\n"]
        "/* End PBXBuildFile section */\n",
      Seg.quiet "x\n"]).flatMap (Seg.out ["F\n"] ["B\n"] ["S\n"] ["G\n"])
      = ([Seg.buildFile "/* Begin PBXBuildFile section */\n" ["old\n"]
            "/* End PBXBuildFile section */\n",
          Seg.quiet "x\n"]).flatMap (Seg.out ["F\n"] ["B\n"] ["S2\n"] ["G\n"]) ∧
    splice ["F\n"] ["B\n"] ["S\n"] ["G\n"]
        (["x\n"] ++ "/* Begin PBXBuildFile section */\n" :: ["y\n"]) = none :=
  ⟨claim_C1.1 ["F\n"] ["B\n"] ["S\n"] ["G\n"] _ (by decide),
   claim_C1.2.1 ["F\n"] ["B\n"] ["S\n"] ["S2\n"] ["G\n"] _ (by decide),
   claim_C1.2.2.2.2.2.1 ["F\n"] ["B\n"] ["S\n"] ["G\n"] ["x\n"] ["x\n"] ["y\n"]
     "/* Begin PBXBuildFile section */\n" (by decide) (by decide) (by decide)⟩

/-! ### Claim C2 -/

theorem sublist_step {K o : List String} (line : String) (X : List String)
    (hs : K.Sublist o) : (line :: K).Sublist (X ++ line :: o) :=
  (hs.cons₂ line).trans (List.sublist_append_right X (line :: o))

theorem mem_step {K o fr bf se gb : List String} {line : String} {X : List String}
    (hX : ∀ x ∈ X, x ∈ fr ∨ x ∈ bf ∨ x ∈ se ∨ x ∈ gb)
    (hm : ∀ l ∈ o, l ∈ K ∨ l ∈ fr ∨ l ∈ bf ∨ l ∈ se ∨ l ∈ gb) :
    ∀ l ∈ X ++ line :: o,
      l ∈ line :: K ∨ l ∈ fr ∨ l ∈ bf ∨ l ∈ se ∨ l ∈ gb := by
  intro l hl
  rcases List.mem_append.mp hl with hlX | hlc
  · rcases hX l hlX with h | h | h | h
    · exact Or.inr (Or.inl h)
    · exact Or.inr (Or.inr (Or.inl h))
    · exact Or.inr (Or.inr (Or.inr (Or.inl h)))
    · exact Or.inr (Or.inr (Or.inr (Or.inr h)))
  · rcases List.mem_cons.mp hlc with rfl | hlo
    · exact Or.inl (List.mem_cons_self _ _)
    · rcases hm l hlo with h | h | h | h | h
      · exact Or.inl (List.mem_cons_of_mem _ h)
      · exact Or.inr (Or.inl h)
      · exact Or.inr (Or.inr (Or.inl h))
      · exact Or.inr (Or.inr (Or.inr (Or.inl h)))
      · exact Or.inr (Or.inr (Or.inr (Or.inr h)))

theorem spliceAux_kept (fr bf se gb : List String) :
    ∀ (lines : List String) (m : Mode) (out : List String),
      spliceAux fr bf se gb m lines = some out →
      (specKeptLines m lines).Sublist out ∧
        ∀ l ∈ out, l ∈ specKeptLines m lines ∨ l ∈ fr ∨ l ∈ bf ∨ l ∈ se ∨ l ∈ gb := by
  intro lines
  induction lines with
  | nil =>
    intro m out h
    cases m <;> simp only [spliceAux, Option.some.injEq, reduceCtorEq] at h
    subst h
    simp [specKeptLines]
  | cons line rest ih =>
    intro m out h
    have step :
        ∀ (m' : Mode) (X : List String), (∀ x ∈ X, x ∈ fr ∨ x ∈ bf ∨ x ∈ se ∨ x ∈ gb) →
          (spliceAux fr bf se gb m' rest).map (fun o => X ++ line :: o) = some out →
          (line :: specKeptLines m' rest).Sublist out ∧
            ∀ l ∈ out,
              l ∈ line :: specKeptLines m' rest ∨ l ∈ fr ∨ l ∈ bf ∨ l ∈ se ∨ l ∈ gb := by
      intro m' X hX hmap
      obtain ⟨o, ho, rfl⟩ := Option.map_eq_some'.mp hmap
      obtain ⟨hs, hm⟩ := ih m' o ho
      exact ⟨sublist_step line X hs, mem_step hX hm⟩
    have stepNil :
        ∀ (m' : Mode), (spliceAux fr bf se gb m' rest).map (line :: ·) = some out →
          (line :: specKeptLines m' rest).Sublist out ∧
            ∀ l ∈ out,
              l ∈ line :: specKeptLines m' rest ∨ l ∈ fr ∨ l ∈ bf ∨ l ∈ se ∨ l ∈ gb := by
      intro m' hmap
      refine step m' [] (by simp) ?_
      simpa using hmap
    cases m with
    | normal =>
      by_cases h1 : isBeginBuildFile line
      · rw [show spliceAux fr bf se gb .normal (line :: rest)
              = (spliceAux fr bf se gb .inBuildFile rest).map (line :: ·) by
            simp [spliceAux, h1]] at h
        simpa [specKeptLines, h1] using stepNil _ h
      · by_cases h2 : isBeginFileRef line
        · rw [show spliceAux fr bf se gb .normal (line :: rest)
                = (spliceAux fr bf se gb .inFileRef rest).map (line :: ·) by
              simp [spliceAux, h1, h2]] at h
          simpa [specKeptLines, h1, h2] using stepNil _ h
        · by_cases h3 : isEndPBXGroup line
          · rw [show spliceAux fr bf se gb .normal (line :: rest)
                  = (spliceAux fr bf se gb .normal rest).map (fun o => gb ++ line :: o) by
                simp [spliceAux, h1, h2, h3]] at h
            simpa [specKeptLines, h1, h2, h3] using step _ gb (by tauto) h
          · by_cases h4 : isSourcesStart line
            · rw [show spliceAux fr bf se gb .normal (line :: rest)
                    = (spliceAux fr bf se gb .seekFiles rest).map (line :: ·) by
                  simp [spliceAux, h1, h2, h3, h4]] at h
              simpa [specKeptLines, h1, h2, h3, h4] using stepNil _ h
            · rw [show spliceAux fr bf se gb .normal (line :: rest)
                    = (spliceAux fr bf se gb .normal rest).map (line :: ·) by
                  simp [spliceAux, h1, h2, h3, h4]] at h
              simpa [specKeptLines, h1, h2, h3, h4] using stepNil _ h
    | inBuildFile =>
      by_cases h1 : isEndBuildFile line
      · rw [show spliceAux fr bf se gb .inBuildFile (line :: rest)
              = (spliceAux fr bf se gb .normal rest).map (fun o => bf ++ line :: o) by
            simp [spliceAux, h1]] at h
        simpa [specKeptLines, h1] using step _ bf (by tauto) h
      · rw [show spliceAux fr bf se gb .inBuildFile (line :: rest)
              = (spliceAux fr bf se gb .inBuildFile rest).map (line :: ·) by
            simp [spliceAux, h1]] at h
        simpa [specKeptLines, h1] using stepNil _ h
    | inFileRef =>
      by_cases h1 : isEndFileRef line
      · rw [show spliceAux fr bf se gb .inFileRef (line :: rest)
              = (spliceAux fr bf se gb .normal rest).map (fun o => fr ++ line :: o) by
            simp [spliceAux, h1]] at h
        simpa [specKeptLines, h1] using step _ fr (by tauto) h
      · by_cases h2 : isDroppedFolderLine line
        · rw [show spliceAux fr bf se gb .inFileRef (line :: rest)
                = spliceAux fr bf se gb .inFileRef rest by
              simp [spliceAux, h1, h2]] at h
          obtain ⟨hs, hm⟩ := ih _ _ h
          refine ⟨?_, ?_⟩
          · simpa [specKeptLines, h1, h2] using hs
          · simpa [specKeptLines, h1, h2] using hm
        · rw [show spliceAux fr bf se gb .inFileRef (line :: rest)
                = (spliceAux fr bf se gb .inFileRef rest).map (line :: ·) by
              simp [spliceAux, h1, h2]] at h
          simpa [specKeptLines, h1, h2] using stepNil _ h
    | seekFiles =>
      by_cases h1 : hasFilesOpen line
      · rw [show spliceAux fr bf se gb .seekFiles (line :: rest)
              = (spliceAux fr bf se gb .seekClose rest).map (line :: ·) by
            simp [spliceAux, h1]] at h
        simpa [specKeptLines, h1] using stepNil _ h
      · rw [show spliceAux fr bf se gb .seekFiles (line :: rest)
              = (spliceAux fr bf se gb .seekFiles rest).map (line :: ·) by
            simp [spliceAux, h1]] at h
        simpa [specKeptLines, h1] using stepNil _ h
    | seekClose =>
      by_cases h1 : hasCloseParen line
      · rw [show spliceAux fr bf se gb .seekClose (line :: rest)
              = (spliceAux fr bf se gb .normal rest).map (fun o => se ++ line :: o) by
            simp [spliceAux, h1]] at h
        simpa [specKeptLines, h1] using step _ se (by tauto) h
      · rw [show spliceAux fr bf se gb .seekClose (line :: rest)
              = (spliceAux fr bf se gb .seekClose rest).map (line :: ·) by
            simp [spliceAux, h1]] at h
        simpa [specKeptLines, h1] using stepNil _ h

/-- C2: whenever the pass completes, every line of the original manifest that
the region scan does not drop (only folder-type reference lines naming a
watched category, inside the file-reference region, are dropped) appears
unchanged and in its original relative order in the output, and every output
line is either such a kept input line or one of the generated fragment lines
(file-reference, build-file, sources-phase, or group-block lines). -/
theorem claim_C2 (fr bf se gb lines out : List String)
    (h : splice fr bf se gb lines = some out) :
    (specKeptLines .normal lines).Sublist out ∧
      ∀ l ∈ out,
        l ∈ specKeptLines .normal lines ∨ l ∈ fr ∨ l ∈ bf ∨ l ∈ se ∨ l ∈ gb :=
  spliceAux_kept fr bf se gb lines .normal out h

/-- Witness for C2 at a concrete manifest containing a group-section end
marker, with nonempty fragment lists. -/
theorem claim_C2_witness :
    (specKeptLines .normal ["x\n", "/* End PBXGroup section */\n"]).Sublist
        ["x\n", "G\n", "/* End PBXGroup section */\n"] ∧
      ∀ l ∈ ["x\n", "G\n", "/* End PBXGroup section */\n"],
        l ∈ specKeptLines .normal ["x\n", "/* End PBXGroup section */\n"] ∨
          l ∈ ["F\n"] ∨ l ∈ ["B\n"] ∨ l ∈ ["S\n"] ∨ l ∈ ["G\n"] :=
  claim_C2 ["F\n"] ["B\n"] ["S\n"] ["G\n"] _ _ rfl

/-! ### Claim C3 -/

theorem length_fileRefEntriesFrom (c : Nat) (files : List (String × String)) :
    (fileRefEntriesFrom c files).length = files.length := by
  induction files generalizing c with
  | nil => rfl
  | cons p rest ih => cases p; simp [fileRefEntriesFrom, ih]

theorem length_buildFileEntriesFrom (c : Nat) (files : List (String × String)) :
    (buildFileEntriesFrom c files).length = files.length := by
  induction files generalizing c with
  | nil => rfl
  | cons p rest ih => cases p; simp [buildFileEntriesFrom, ih]

theorem length_sourcesEntriesFrom (c : Nat) (files : List (String × String)) :
    (sourcesEntriesFrom c files).length = files.length := by
  induction files generalizing c with
  | nil => rfl
  | cons p rest ih => cases p; simp [sourcesEntriesFrom, ih]

theorem length_groupEntriesFrom_cons (c : Nat) (d : String) (p : String × String)
    (files : List (String × String)) :
    (groupEntriesFrom c d (p :: files)).length
      = (if p.1 = d then 1 else 0) + (groupEntriesFrom (c + 1) d files).length := by
  cases p with
  | mk dir f =>
    by_cases h : dir = d
    · simp [groupEntriesFrom, h]
      omega
    · simp [groupEntriesFrom, h]

theorem sum_map_add_nat {α : Type} (L : List α) (f g : α → Nat) :
    (L.map (fun x => f x + g x)).sum = (L.map f).sum + (L.map g).sum := by
  induction L with
  | nil => rfl
  | cons x L ih => simp [ih]; omega

theorem sum_map_ite_eq_count (L : List String) (a : String) :
    (L.map (fun d => if a = d then 1 else 0)).sum = L.count a := by
  induction L with
  | nil => rfl
  | cons b L ih =>
    rw [List.map_cons, List.sum_cons, ih, List.count_cons]
    by_cases h : a = b
    · subst h; simp; omega
    · have hba : (b == a) = false := by simp [Ne.symm h]
      simp [h, hba]

theorem sum_length_groupEntriesFrom (files : List (String × String))
    (hf : ∀ p ∈ files, List.count p.1 discoveryDirs = 1) (c : Nat) :
    (discoveryDirs.map (fun d => (groupEntriesFrom c d files).length)).sum
      = files.length := by
  induction files generalizing c with
  | nil => simp [groupEntriesFrom]
  | cons p rest ih =>
    have h1 := hf p (by simp)
    have ih' := ih (fun q hq => hf q (by simp [hq])) (c + 1)
    simp only [length_groupEntriesFrom_cons, sum_map_add_nat, sum_map_ite_eq_count, ih']
    rw [h1]
    simp
    omega

theorem mem_discover (fs : FS) :
    ∀ p ∈ discover fs,
      p.1 ∈ discoveryDirs ∧ fs.dirExists p.1 = true ∧
        hasSwiftExt p.2 = true ∧ p.2 ∈ fs.dirFiles p.1 := by
  intro p hp
  simp only [discover, List.mem_flatMap] at hp
  obtain ⟨d, hd, hpd⟩ := hp
  by_cases he : fs.dirExists d
  · rw [if_pos he] at hpd
    obtain ⟨f, hf, rfl⟩ := List.mem_map.mp hpd
    have hf' := List.mem_filter.mp (List.mem_mergeSort.mp hf)
    exact ⟨hd, he, hf'.2, hf'.1⟩
  · simp [he] at hpd

theorem count_one_of_mem_discoveryDirs {d : String} (h : d ∈ discoveryDirs) :
    List.count d discoveryDirs = 1 :=
  List.count_eq_one_of_mem (by decide) h

/-- C3: the number of file-reference fragments, build-file fragments and
sources-phase fragments each equal the number of discovered, non-excluded
files, and the group-child fragments summed over all categories total the
same number. -/
theorem claim_C3 (fs : FS) :
    (fileRefEntries (filesToAdd fs)).length = (filesToAdd fs).length ∧
    (buildFileEntries (filesToAdd fs)).length = (filesToAdd fs).length ∧
    (sourcesEntries (filesToAdd fs)).length = (filesToAdd fs).length ∧
    (discoveryDirs.map (fun d => (groupEntriesOf (filesToAdd fs) d).length)).sum
      = (filesToAdd fs).length := by
  refine ⟨length_fileRefEntriesFrom _ _, length_buildFileEntriesFrom _ _,
    length_sourcesEntriesFrom _ _, ?_⟩
  apply sum_length_groupEntriesFrom
  intro p hp
  have hp' : p ∈ discover fs := (List.mem_filter.mp hp).1
  exact count_one_of_mem_discoveryDirs (mem_discover fs p hp').1

/-! ### Claim C4 -/

theorem toDigitsAux_eq (fuel n : Nat) (h : n ≤ fuel) :
    toDigitsAux fuel n = (Nat.digits 10 n).reverse.map (fun d => Char.ofNat (48 + d)) := by
  induction fuel generalizing n with
  | zero =>
    have : n = 0 := Nat.le_zero.mp h
    subst this
    simp [toDigitsAux, Nat.digits_zero]
  | succ fuel ih =>
    by_cases hn : n = 0
    · subst hn; simp [toDigitsAux, Nat.digits_zero]
    · have hlt : n / 10 < n := Nat.div_lt_self (Nat.pos_of_ne_zero hn) (by norm_num)
      have h10 : n / 10 ≤ fuel := by omega
      rw [show toDigitsAux (fuel + 1) n
            = toDigitsAux fuel (n / 10) ++ [Char.ofNat (48 + n % 10)] by
          simp [toDigitsAux, hn]]
      rw [ih _ h10, Nat.digits_def' (by norm_num : (1:ℕ) < 10) (Nat.pos_of_ne_zero hn)]
      simp

theorem foldl_digit_chars (M : List Nat) (hM : ∀ d ∈ M, d < 10) (a : Nat) :
    (M.map (fun d => Char.ofNat (48 + d))).foldl (fun acc c => acc * 10 + (c.toNat - 48)) a
      = a * 10 ^ M.length + Nat.ofDigits 10 M.reverse := by
  induction M generalizing a with
  | nil => simp
  | cons d M ih =>
    have hd : (Char.ofNat (48 + d)).toNat - 48 = d := by
      have : d < 10 := hM d (by simp)
      interval_cases d <;> decide
    simp only [List.map_cons, List.foldl_cons, hd]
    rw [ih (fun x hx => hM x (by simp [hx])) (a * 10 + d)]
    rw [List.reverse_cons, Nat.ofDigits_append, Nat.ofDigits_singleton]
    simp only [List.length_cons, List.length_reverse, pow_succ]
    ring

theorem digitsVal_pad20 (n : Nat) : digitsVal (pad20 n).data = n := by
  have hzeros : ∀ k, List.foldl (fun a c => a * 10 + (c.toNat - 48)) 0 (List.replicate k '0') = 0 := by
    intro k
    induction k with
    | zero => rfl
    | succ k ih => simpa [List.replicate_succ] using ih
  show List.foldl _ 0 (List.replicate _ '0' ++ natToDigits n) = n
  rw [List.foldl_append, hzeros]
  by_cases hn : n = 0
  · subst hn; rfl
  · rw [show natToDigits n = (Nat.digits 10 n).reverse.map (fun d => Char.ofNat (48 + d)) by
      simp only [natToDigits, if_neg hn]; exact toDigitsAux_eq n n le_rfl]
    rw [foldl_digit_chars _
      (fun d hd => Nat.digits_lt_base (by norm_num) (List.mem_reverse.mp hd)) 0]
    simp [Nat.ofDigits_digits]

theorem pad20_injective {a b : Nat} (h : pad20 a = pad20 b) : a = b := by
  have := congrArg (fun s => digitsVal s.data) h
  simpa [digitsVal_pad20] using this

theorem generate_id_inj_counter {p : String} {a b : Nat}
    (h : generate_id p a = generate_id p b) : a = b := by
  apply pad20_injective
  apply String.ext
  have hd := congrArg String.data h
  simp only [generate_id, String.data_append] at hd
  exact List.append_cancel_left hd

theorem generate_id_BB_ne_CC (a b : Nat) : generate_id "BB" a ≠ generate_id "CC" b := by
  intro h
  have hd := congrArg String.data h
  simp only [generate_id, String.data_append] at hd
  have hd' : ('B' :: 'B' :: (pad20 a).data : List Char) = 'C' :: 'C' :: (pad20 b).data := hd
  injection hd' with h1 _
  exact absurd h1 (by decide)

theorem fileRefEntriesFrom_getElem (c : Nat) (files : List (String × String)) (i : Nat) :
    (fileRefEntriesFrom c files)[i]?
      = files[i]?.map (fun p => fileRefEntry (generate_id "BB" (c + i)) p.2) := by
  induction files generalizing c i with
  | nil => simp [fileRefEntriesFrom]
  | cons p rest ih =>
    cases p with
    | mk d f =>
      cases i with
      | zero => simp [fileRefEntriesFrom]
      | succ i =>
        have := ih (c + 1) i
        simpa [fileRefEntriesFrom, Nat.add_assoc, Nat.add_comm 1 i] using this

theorem buildFileEntriesFrom_getElem (c : Nat) (files : List (String × String)) (i : Nat) :
    (buildFileEntriesFrom c files)[i]?
      = files[i]?.map (fun p =>
          buildFileEntry (generate_id "CC" (c + i)) (generate_id "BB" (c + i)) p.2) := by
  induction files generalizing c i with
  | nil => simp [buildFileEntriesFrom]
  | cons p rest ih =>
    cases p with
    | mk d f =>
      cases i with
      | zero => simp [buildFileEntriesFrom]
      | succ i =>
        have := ih (c + 1) i
        simpa [buildFileEntriesFrom, Nat.add_assoc, Nat.add_comm 1 i] using this

/-- C4: identifier allocation is collision-free. The i-th discovered file's
file-reference fragment and build-file fragment are both built from the same
counter value `5000 + i` (the counter advances by one per file, not per
identifier), with the two distinct prefixes `BB` and `CC`; two identifiers
with the same prefix but different counters differ, and a `BB` identifier
never equals a `CC` identifier. -/
theorem claim_C4 :
    (∀ (c : Nat) (files : List (String × String)) (i : Nat),
        (fileRefEntriesFrom c files)[i]?
          = files[i]?.map (fun p => fileRefEntry (generate_id "BB" (c + i)) p.2)) ∧
    (∀ (c : Nat) (files : List (String × String)) (i : Nat),
        (buildFileEntriesFrom c files)[i]?
          = files[i]?.map (fun p =>
              buildFileEntry (generate_id "CC" (c + i)) (generate_id "BB" (c + i)) p.2)) ∧
    (∀ i j : Nat, generate_id "BB" i ≠ generate_id "CC" j) ∧
    (∀ i j : Nat, i ≠ j → generate_id "BB" i ≠ generate_id "BB" j) ∧
    (∀ i j : Nat, i ≠ j → generate_id "CC" i ≠ generate_id "CC" j) :=
  ⟨fileRefEntriesFrom_getElem, buildFileEntriesFrom_getElem, generate_id_BB_ne_CC,
   fun _ _ hne h => hne (generate_id_inj_counter h),
   fun _ _ hne h => hne (generate_id_inj_counter h)⟩

/-- Witness for C4 at concrete counters and a concrete file list. -/
theorem claim_C4_witness :
    (fileRefEntriesFrom 5000 [("Views", "A.swift")])[0]?
        = some (fileRefEntry (generate_id "BB" 5000) "A.swift") ∧
      generate_id "BB" 5000 ≠ generate_id "CC" 5000 ∧
      generate_id "BB" 5000 ≠ generate_id "BB" 5001 :=
  ⟨by simpa using claim_C4.1 5000 [("Views", "A.swift")] 0,
   claim_C4.2.2.1 5000 5000,
   claim_C4.2.2.2.1 5000 5001 (by decide)⟩

/-! ### Claim C5 -/

theorem flatMap_ite_empty {α β : Type} (L : List α) (c : α → Bool) (g : α → List β) :
    (L.flatMap fun x => if c x then [] else g x) = (L.filter (fun x => !c x)).flatMap g := by
  induction L with
  | nil => rfl
  | cons x L ih => by_cases h : c x <;> simp [h, ih]

theorem groupBlocks_eq_filter (ge : String → List String) :
    groupBlocks ge
      = (dirIdMap.filter (fun p => !(ge p.1).isEmpty)).flatMap
          (fun p => groupBlock p.1 p.2 (ge p.1)) :=
  flatMap_ite_empty dirIdMap (fun p => (ge p.1).isEmpty) (fun p => groupBlock p.1 p.2 (ge p.1))

/-- C5: for every input manifest in which the group-section end marker line
is reached at the top level of the scan — that is, the lines before it form
any prefix the pass processes to completion, regions of other kinds
included — the emitted group-definition blocks are inserted immediately
before that marker line, between the spliced prefix and the marker; they
consist of one block per category that has at least one group-child fragment
(categories with none are skipped), taken in the fixed `dir_id_map` order
Models, ViewModels, Views, Services, Components (regardless of discovery
order), each block being: open-brace line, `isa` type tag, `children = (`
opener, that category's group-child fragments, the `);` closer, the category
name as `path`, the `sourceTree` tag, and a closing brace. -/
theorem claim_C5 (fr bf se : List String) (ge : String → List String)
    (pre preOut rest out : List String) (gline : String)
    (hpre : spliceAux fr bf se (groupBlocks ge) .normal pre = some preOut)
    (h1 : isBeginBuildFile gline = false) (h2 : isBeginFileRef gline = false)
    (hg : isEndPBXGroup gline = true)
    (hrest : spliceAux fr bf se (groupBlocks ge) .normal rest = some out) :
    splice fr bf se (groupBlocks ge) (pre ++ gline :: rest)
        = some (preOut ++ (groupBlocks ge ++ gline :: out)) ∧
      groupBlocks ge
        = (dirIdMap.filter (fun p => !(ge p.1).isEmpty)).flatMap
            (fun p => groupBlock p.1 p.2 (ge p.1)) := by
  refine ⟨?_, groupBlocks_eq_filter ge⟩
  rw [splice, spliceAux_append_complete _ _ _ _ pre .normal preOut _ hpre]
  rw [show spliceAux fr bf se (groupBlocks ge) .normal (gline :: rest)
        = (spliceAux fr bf se (groupBlocks ge) .normal rest).map
            (fun o => groupBlocks ge ++ gline :: o) by
      simp [spliceAux, h1, h2, hg]]
  rw [hrest]
  rfl

/-- Witness for C5: a concrete manifest with a complete build-file region
before the group end marker, one nonempty category (Models) and the rest
empty; the prefix splices to its own output with the build-file fragment
inserted, and the group blocks land between that and the marker. -/
theorem claim_C5_witness :
    splice ["F\n"] ["B\n"] ["S\n"]
          (groupBlocks fun d => if d = "Models" then ["\t\t\t\tchild,\n"] else [])
          (["/* Begin PBXBuildFile section */\n", "/* End PBXBuildFile section */\n"] ++
            "/* End PBXGroup section */\n" :: ["tail\n"])
        = some (["/* Begin PBXBuildFile section */\n", "B\n",
              "/* End PBXBuildFile section */\n"] ++
            ((groupBlocks fun d => if d = "Models" then ["\t\t\t\tchild,\n"] else []) ++
              "/* End PBXGroup section */\n" :: ["tail\n"])) ∧
      (groupBlocks fun d => if d = "Models" then ["\t\t\t\tchild,\n"] else [])
        = (dirIdMap.filter
              (fun p => !((if p.1 = "Models" then ["\t\t\t\tchild,\n"] else [] : List String)).isEmpty)).flatMap
            (fun p => groupBlock p.1 p.2 (if p.1 = "Models" then ["\t\t\t\tchild,\n"] else [])) :=
  claim_C5 ["F\n"] ["B\n"] ["S\n"] _
    ["/* Begin PBXBuildFile section */\n", "/* End PBXBuildFile section */\n"]
    ["/* Begin PBXBuildFile section */\n", "B\n", "/* End PBXBuildFile section */\n"]
    ["tail\n"] _ "/* End PBXGroup section */\n"
    (by decide) (by decide) (by decide) (by decide) (by decide)

/-! ### Claim C6 -/

theorem charListLe_total : ∀ a b : List Char, (charListLe a b || charListLe b a) = true
  | [], _ => by simp [charListLe]
  | _ :: _, [] => by simp [charListLe]
  | a :: as, b :: bs => by
    by_cases h1 : a < b
    · simp [charListLe, h1]
    · by_cases h2 : a = b
      · subst h2
        simpa [charListLe, lt_self_iff_false] using charListLe_total as bs
      · have hba : b < a := by
          rcases lt_trichotomy a b with h | h | h
          · exact absurd h h1
          · exact absurd h h2
          · exact h
        simp [charListLe, hba]

theorem charListLe_trans : ∀ a b c : List Char,
    charListLe a b = true → charListLe b c = true → charListLe a c = true
  | [], _, _, _, _ => by simp [charListLe]
  | _ :: _, [], _, h1, _ => by simp [charListLe] at h1
  | _ :: _, _ :: _, [], _, h2 => by simp [charListLe] at h2
  | a :: as, b :: bs, c :: cs, h1, h2 => by
    by_cases hab : a < b
    · by_cases hbc : b < c
      · simp [charListLe, lt_trans hab hbc]
      · by_cases hbc2 : b = c
        · subst hbc2; simp [charListLe, hab]
        · simp [charListLe, hbc, hbc2] at h2
    · by_cases hab2 : a = b
      · subst hab2
        by_cases hbc : a < c
        · simp [charListLe, hbc]
        · by_cases hbc2 : a = c
          · subst hbc2
            have e : ∀ xs ys : List Char, charListLe (a :: xs) (a :: ys) = charListLe xs ys := by
              intro xs ys
              simp [charListLe]
            rw [e] at h1 h2
            rw [e]
            exact charListLe_trans as bs cs h1 h2
          · simp [charListLe, hbc, hbc2] at h2
      · simp [charListLe, hab, hab2] at h1

theorem strLe_trans (a b c : String) (h1 : strLe a b = true) (h2 : strLe b c = true) :
    strLe a c = true :=
  charListLe_trans _ _ _ h1 h2

theorem strLe_total (a b : String) : (strLe a b || strLe b a) = true :=
  charListLe_total _ _

theorem mem_discover_block {fs : FS} {d : String} {p : String × String}
    (hp : p ∈ (if fs.dirExists d = true then
        (((fs.dirFiles d).filter hasSwiftExt).mergeSort strLe).map (fun f => (d, f))
      else [])) :
    p.1 = d := by
  by_cases he : fs.dirExists d
  · rw [if_pos he] at hp
    obtain ⟨f, _, rfl⟩ := List.mem_map.mp hp
    rfl
  · simp [he] at hp

theorem discover_pairwise (fs : FS) :
    (discover fs).Pairwise (fun p q =>
      discoveryDirs.indexOf p.1 < discoveryDirs.indexOf q.1 ∨
        (p.1 = q.1 ∧ strLe p.2 q.2 = true)) := by
  rw [discover, List.flatMap_def, List.pairwise_flatten]
  constructor
  · intro l hl
    obtain ⟨d, _, rfl⟩ := List.mem_map.mp hl
    by_cases he : fs.dirExists d
    · rw [if_pos he, List.pairwise_map]
      exact (List.sorted_mergeSort strLe_trans strLe_total
        ((fs.dirFiles d).filter hasSwiftExt)).imp (fun h => Or.inr ⟨rfl, h⟩)
    · simp [he]
  · rw [List.pairwise_map]
    have hdirs : List.Pairwise (fun d d' : String =>
        discoveryDirs.indexOf d < discoveryDirs.indexOf d') discoveryDirs := by decide
    refine hdirs.imp ?_
    intro d d' hidx x hx y hy
    exact Or.inl (by rw [mem_discover_block hx, mem_discover_block hy]; exact hidx)

/-- C6: discovery visits the category subdirectories in the fixed list order,
silently produces no entry for a subdirectory that does not exist, keeps
within each existing subdirectory only the `.swift`-suffixed entries, sorted
lexicographically by name within the category (the whole sequence is
category-major in list order), and the non-excluded result keeps exactly the
discovered files whose name is outside the fixed exclusion set. -/
theorem claim_C6 (fs : FS) :
    (∀ d f, fs.dirExists d = false → (d, f) ∉ discover fs) ∧
    (∀ p ∈ discover fs,
        p.1 ∈ discoveryDirs ∧ fs.dirExists p.1 = true ∧
          hasSwiftExt p.2 = true ∧ p.2 ∈ fs.dirFiles p.1) ∧
    (discover fs).Pairwise (fun p q =>
        discoveryDirs.indexOf p.1 < discoveryDirs.indexOf q.1 ∨
          (p.1 = q.1 ∧ strLe p.2 q.2 = true)) ∧
    (∀ p : String × String, p ∈ filesToAdd fs ↔ p ∈ discover fs ∧ p.2 ∉ excludedFiles) := by
  refine ⟨?_, mem_discover fs, discover_pairwise fs, ?_⟩
  · intro d f hne hmem
    have := (mem_discover fs _ hmem).2.1
    simp only at this
    rw [hne] at this
    exact Bool.false_ne_true this
  · intro p
    simp [filesToAdd, List.mem_filter]

/-- Witness for C6 at a concrete filesystem: a missing category directory
contributes nothing, and the exclusion set is honoured. -/
theorem claim_C6_witness :
    ("ViewModels", "X.swift")
        ∉ discover (FS.mk (fun d => d == "Views") (fun _ => ["A.swift"])) ∧
      (("Views", "IncApp.swift")
          ∈ filesToAdd (FS.mk (fun d => d == "Views") (fun _ => ["A.swift"])) ↔
        ("Views", "IncApp.swift")
            ∈ discover (FS.mk (fun d => d == "Views") (fun _ => ["A.swift"])) ∧
          "IncApp.swift" ∉ excludedFiles) :=
  ⟨(claim_C6 _).1 "ViewModels" "X.swift" rfl,
   (claim_C6 _).2.2.2 ("Views", "IncApp.swift")⟩

/-! ### Claim C8 -/

/-- C8 as frozen is refuted: on a manifest that lacks the build-phase marker
and contains the other three regions' markers, but whose file-reference
region holds a watched-category folder-reference line, the output shrinks by
the dropped line, so its length does not exceed the input's by exactly the
other three regions' insertions (here all fragment lists are empty, so that
excess would be zero). -/
theorem claim_C8_counterexample :
    (splice [] [] [] []
          ["/* Begin PBXBuildFile section */\n",
           "/* End PBXBuildFile section */\n",
           "/* Begin PBXFileReference section */\n",
           "\t\tAA02 /* Views */ = \x7bisa = PBXFileReference; lastKnownFileType = folder; path = Views; \x7d;\n",
           "/* End PBXFileReference section */\n",
           "/* End PBXGroup section */\n"]).map List.length = some 5 ∧
      ¬ (5 : Nat) = 6 + ([] : List String).length + ([] : List String).length
          + ([] : List String).length := by
  constructor
  · rfl
  · decide

/-- C8 (amended): for a manifest shaped as quiet lines, the build-file
region, quiet lines, the file-reference region containing no watched-category
folder-reference lines, quiet lines, the group-section end marker, and quiet
trailing lines — with no build-phase header anywhere among the scanned
trigger lines — the sources-phase fragments are never injected, and the
output is the input with exactly the build-file fragments, file-reference
fragments, and group blocks inserted, so its line count exceeds the input's
by exactly those three regions' insertions. -/
theorem claim_C8 (fr bf se gb A B C D E F : List String) (bb be fb fe gl : String)
    (hA : ∀ l ∈ A, triggersNone l = true)
    (hbb : isBeginBuildFile bb = true)
    (hB : ∀ l ∈ B, isEndBuildFile l = false)
    (hbe : isEndBuildFile be = true)
    (hC : ∀ l ∈ C, triggersNone l = true)
    (hfb1 : isBeginBuildFile fb = false) (hfb : isBeginFileRef fb = true)
    (hD : ∀ l ∈ D, isEndFileRef l = false)
    (hDk : ∀ l ∈ D, isDroppedFolderLine l = false)
    (hfe : isEndFileRef fe = true)
    (hE : ∀ l ∈ E, triggersNone l = true)
    (hg1 : isBeginBuildFile gl = false) (hg2 : isBeginFileRef gl = false)
    (hg : isEndPBXGroup gl = true)
    (hF : ∀ l ∈ F, triggersNone l = true) :
    splice fr bf se gb
        (A ++ (bb :: (B ++ (be :: (C ++ (fb :: (D ++ (fe :: (E ++ (gl :: F))))))))))
      = some (A ++ (bb :: (B ++ (bf ++ (be :: (C ++ (fb :: (D ++ (fr ++ (fe ::
          (E ++ (gb ++ (gl :: F))))))))))))) ∧
    (A ++ (bb :: (B ++ (bf ++ (be :: (C ++ (fb :: (D ++ (fr ++ (fe ::
        (E ++ (gb ++ (gl :: F))))))))))))).length
      = (A ++ (bb :: (B ++ (be :: (C ++ (fb :: (D ++ (fe :: (E ++ (gl :: F)))))))))).length
          + fr.length + bf.length + gb.length := by
  constructor
  · rw [splice, spliceAux_append_quiet _ _ _ _ _ _ hA]
    rw [show spliceAux fr bf se gb .normal
          (bb :: (B ++ (be :: (C ++ (fb :: (D ++ (fe :: (E ++ (gl :: F)))))))))
        = (spliceAux fr bf se gb .inBuildFile
            (B ++ (be :: (C ++ (fb :: (D ++ (fe :: (E ++ (gl :: F))))))))).map (bb :: ·) by
      simp [spliceAux, hbb]]
    rw [spliceAux_buildFileRegion _ _ _ _ _ _ _ hB hbe]
    rw [spliceAux_append_quiet _ _ _ _ _ _ hC]
    rw [show spliceAux fr bf se gb .normal (fb :: (D ++ (fe :: (E ++ (gl :: F)))))
        = (spliceAux fr bf se gb .inFileRef (D ++ (fe :: (E ++ (gl :: F))))).map (fb :: ·) by
      simp [spliceAux, hfb1, hfb]]
    rw [spliceAux_fileRefRegion _ _ _ _ _ _ _ hD hfe]
    rw [spliceAux_append_quiet _ _ _ _ _ _ hE]
    rw [show spliceAux fr bf se gb .normal (gl :: F)
        = (spliceAux fr bf se gb .normal F).map (fun o => gb ++ gl :: o) by
      simp [spliceAux, hg1, hg2, hg]]
    rw [spliceAux_quiet _ _ _ _ _ hF]
    have hfilter : D.filter (fun l => !isDroppedFolderLine l) = D :=
      List.filter_eq_self.mpr (fun l hl => by simp [hDk l hl])
    simp [hfilter, List.append_assoc]
  · simp [List.length_append]
    omega

/-- Witness for C8 at a concrete manifest shape with nonempty fragment
lists. -/
theorem claim_C8_witness :
    splice ["F\n"] ["B\n"] ["S\n"] ["G\n"]
        (["head\n"] ++ ("/* Begin PBXBuildFile section */\n" ::
          ([] ++ ("/* End PBXBuildFile section */\n" ::
            ([] ++ ("/* Begin PBXFileReference section */\n" ::
              ([] ++ ("/* End PBXFileReference section */\n" ::
                ([] ++ ("/* End PBXGroup section */\n" :: ["tail\n"]))))))))))
      = some (["head\n"] ++ ("/* Begin PBXBuildFile section */\n" ::
          ([] ++ (["B\n"] ++ ("/* End PBXBuildFile section */\n" ::
            ([] ++ ("/* Begin PBXFileReference section */\n" ::
              ([] ++ (["F\n"] ++ ("/* End PBXFileReference section */\n" ::
                ([] ++ (["G\n"] ++ ("/* End PBXGroup section */\n" ::
                  ["tail\n"]))))))))))))) ∧
    (["head\n"] ++ ("/* Begin PBXBuildFile section */\n" ::
        ([] ++ (["B\n"] ++ ("/* End PBXBuildFile section */\n" ::
          ([] ++ ("/* Begin PBXFileReference section */\n" ::
            ([] ++ (["F\n"] ++ ("/* End PBXFileReference section */\n" ::
              ([] ++ (["G\n"] ++ ("/* End PBXGroup section */\n" ::
                ["tail\n"]))))))))))))).length
      = (["head\n"] ++ ("/* Begin PBXBuildFile section */\n" ::
          ([] ++ ("/* End PBXBuildFile section */\n" ::
            ([] ++ ("/* Begin PBXFileReference section */\n" ::
              ([] ++ ("/* End PBXFileReference section */\n" ::
                ([] ++ ("/* End PBXGroup section */\n" :: ["tail\n"])))))))))).length
          + (["F\n"] : List String).length + (["B\n"] : List String).length
          + (["G\n"] : List String).length :=
  claim_C8 ["F\n"] ["B\n"] ["S\n"] ["G\n"] ["head\n"] [] [] [] [] ["tail\n"]
    "/* Begin PBXBuildFile section */\n" "/* End PBXBuildFile section */\n"
    "/* Begin PBXFileReference section */\n" "/* End PBXFileReference section */\n"
    "/* End PBXGroup section */\n"
    (by decide) (by decide) (by decide) (by decide) (by decide) (by decide) (by decide)
    (by decide) (by decide) (by decide) (by decide) (by decide) (by decide) (by decide)
    (by decide)

/-! ### Claims C7, C9, C10: concrete runs -/

theorem filesToAdd_fsC7 : filesToAdd fsC7 = [("Views", "A.swift"), ("Models", "B.swift")] := by
  unfold filesToAdd discover
  simp only [discoveryDirs, List.flatMap_cons, List.flatMap_nil]
  rw [show (List.filter hasSwiftExt (fsC7.dirFiles "Views")).mergeSort strLe
        = List.filter hasSwiftExt (fsC7.dirFiles "Views") from
      List.mergeSort_of_sorted (by decide),
    show (List.filter hasSwiftExt (fsC7.dirFiles "Models")).mergeSort strLe
        = List.filter hasSwiftExt (fsC7.dirFiles "Models") from
      List.mergeSort_of_sorted (by decide)]
  decide

set_option maxRecDepth 10000 in
set_option maxHeartbeats 2000000 in
theorem runPatch_fsC7_first : runPatch fsC7 manifC7 = some outC7a := by
  rw [runPatch, filesToAdd_fsC7]
  decide

set_option maxRecDepth 20000 in
set_option maxHeartbeats 4000000 in
theorem runPatch_fsC7_second : runPatch fsC7 outC7a = some outC7b := by
  rw [runPatch, filesToAdd_fsC7]
  decide

set_option maxRecDepth 40000 in
set_option maxHeartbeats 4000000 in
/-- C7 as frozen is refuted: in the two-file scenario the completed run
inserts exactly two new file-reference fragment lines into the output (the
input manifest contains none of them), not four. -/
theorem claim_C7_counterexample :
    runPatch fsC7 manifC7 = some outC7a ∧
      outC7a.countP (fun l => (fileRefEntries (filesToAdd fsC7)).contains l) = 2 ∧
      manifC7.countP (fun l => (fileRefEntries (filesToAdd fsC7)).contains l) = 0 := by
  refine ⟨runPatch_fsC7_first, ?_, ?_⟩ <;> rw [filesToAdd_fsC7] <;> decide

set_option maxRecDepth 40000 in
set_option maxHeartbeats 4000000 in
/-- C7 (amended): with exactly the two discovered non-excluded files
`Views/A.swift` and `Models/B.swift` and a manifest containing all four
markers, discovery yields the two files in the fixed enumeration order
(Views before Models), and the output gains two new file-reference lines,
two new build-file lines, two new sources-phase lines, and exactly two new
group blocks (for Models and Views only). -/
theorem claim_C7 :
    filesToAdd fsC7 = [("Views", "A.swift"), ("Models", "B.swift")] ∧
    runPatch fsC7 manifC7 = some outC7a ∧
    (outC7a.countP (fun l => (fileRefEntries (filesToAdd fsC7)).contains l) = 2 ∧
      manifC7.countP (fun l => (fileRefEntries (filesToAdd fsC7)).contains l) = 0) ∧
    (outC7a.countP (fun l => (buildFileEntries (filesToAdd fsC7)).contains l) = 2 ∧
      manifC7.countP (fun l => (buildFileEntries (filesToAdd fsC7)).contains l) = 0) ∧
    (outC7a.countP (fun l => (sourcesEntries (filesToAdd fsC7)).contains l) = 2 ∧
      manifC7.countP (fun l => (sourcesEntries (filesToAdd fsC7)).contains l) = 0) ∧
    (outC7a.countP (fun l =>
        l == "\t\tAA0000100000000000000001 /* Models */ = \x7b\n" ||
          l == "\t\tAA0000120000000000000001 /* Views */ = \x7b\n") = 2 ∧
      outC7a.countP (fun l =>
        l == "\t\tAA0000110000000000000001 /* ViewModels */ = \x7b\n" ||
          l == "\t\tAA0000130000000000000001 /* Services */ = \x7b\n" ||
          l == "\t\tAA0000140000000000000001 /* Components */ = \x7b\n") = 0) := by
  refine ⟨filesToAdd_fsC7, runPatch_fsC7_first, ⟨?_, ?_⟩, ⟨?_, ?_⟩, ⟨?_, ?_⟩, ⟨?_, ?_⟩⟩ <;>
    (try rw [filesToAdd_fsC7]) <;> decide

set_option maxRecDepth 40000 in
set_option maxHeartbeats 4000000 in
/-- C9: the splicing transformation is not idempotent. Running the patcher a
second time on its own output, with the same discovered files and no change
to the exclusion set, re-inserts every fragment: each file-reference,
build-file, sources-phase and group-child fragment occurs once after the
first run and twice after the second, so the twice-patched manifest holds
duplicate entries for each file. -/
theorem claim_C9 :
    runPatch fsC7 manifC7 = some outC7a ∧
    runPatch fsC7 outC7a = some outC7b ∧
    outC7b ≠ outC7a ∧
    (∀ e ∈ fileRefEntries (filesToAdd fsC7), outC7a.count e = 1 ∧ outC7b.count e = 2) ∧
    (∀ e ∈ buildFileEntries (filesToAdd fsC7), outC7a.count e = 1 ∧ outC7b.count e = 2) ∧
    (∀ e ∈ sourcesEntries (filesToAdd fsC7), outC7a.count e = 1 ∧ outC7b.count e = 2) ∧
    (∀ d ∈ discoveryDirs, ∀ e ∈ groupEntriesOf (filesToAdd fsC7) d,
        outC7a.count e = 1 ∧ outC7b.count e = 2) := by
  refine ⟨runPatch_fsC7_first, runPatch_fsC7_second, ?_, ?_, ?_, ?_, ?_⟩ <;>
    (try rw [filesToAdd_fsC7]) <;> decide

/-- C10: even with zero discovered files — all four fragment collections
empty — the transformation is not the identity: inside the file-reference
region, any line containing both the folder type literal and a watched
category comment is still dropped, as the concrete empty-discovery run
shows. -/
theorem claim_C10 :
    (∀ (fr bf se gb rest : List String) (l : String),
        isEndFileRef l = false → isDroppedFolderLine l = true →
          spliceAux fr bf se gb .inFileRef (l :: rest)
            = spliceAux fr bf se gb .inFileRef rest) ∧
    fileRefEntries (filesToAdd fsNone) = [] ∧
    buildFileEntries (filesToAdd fsNone) = [] ∧
    sourcesEntries (filesToAdd fsNone) = [] ∧
    groupBlocks (groupEntriesOf (filesToAdd fsNone)) = [] ∧
    runPatch fsNone manifC10 = some outC10 ∧
    outC10 ≠ manifC10 := by
  refine ⟨?_, rfl, rfl, rfl, rfl, rfl, by decide⟩
  intro fr bf se gb rest l h1 h2
  simp [spliceAux, h1, h2]

/-- Witness for C10: the drop step applied to the concrete folder-reference
line of `manifC10` inside the file-reference region. -/
theorem claim_C10_witness :
    spliceAux [] [] [] [] .inFileRef
        ["\t\tAA0000030000000000000001 /* Views */ = \x7bisa = PBXFileReference; lastKnownFileType = folder; path = Views; sourceTree = \"<group>\"; \x7d;\n",
         "/* End PBXFileReference section */\n"]
      = spliceAux [] [] [] [] .inFileRef ["/* End PBXFileReference section */\n"] :=
  claim_C10.1 [] [] [] [] ["/* End PBXFileReference section */\n"]
    "\t\tAA0000030000000000000001 /* Views */ = \x7bisa = PBXFileReference; lastKnownFileType = folder; path = Views; sourceTree = \"<group>\"; \x7d;\n"
    (by decide) (by decide)

end AddFilesToXcode
